import Mathlib

/-!
Verification of the station-interaction core of the metis-prairie repository:
the progress store of `src/islandMain.js` (and its crystal-garden variant),
and the `IslandInteractionManager` dialogue / popup state machine.

The durable medium (`localStorage`) is modelled as an `Option String`; the
progress key holds JSON text, parsed by a model of `JSON.parse` restricted to
arrays of strings (the only shape this program ever writes).  The model
accepts raw control characters inside string literals and decodes any
escape `\c` to `c`; the writer model escapes exactly the quote and the
backslash, which matches `JSON.stringify` on strings free of control
characters (every key this program writes is of that shape).
-/

namespace MetisPrairie

/-- An error surfaced by the JavaScript runtime: `TypeError` for a property
read on `null`/`undefined`, `SyntaxError` for `JSON.parse` on bad input. -/
inductive JsError where
  | typeError (msg : String)
  | parseError (msg : String)
deriving Repr, DecidableEq


/-- Characters `JSON.parse` skips as whitespace. -/
def isJsonWs (c : Char) : Bool :=
  c = ' ' || c = '\t' || c = '\n' || c = '\r'


/-- Drop leading JSON whitespace. -/
def skipWs : List Char → List Char
  | [] => []
  | c :: cs => if isJsonWs c then skipWs cs else c :: cs


/-- One character of a JSON string literal as `JSON.stringify` emits it:
quote and backslash are escaped, all other characters pass through. -/
def escChar (c : Char) : List Char :=
  if c = '"' ∨ c = '\\' then ['\\', c] else [c]


/-- The comma-separated items of a stringified array of strings. -/
def itemsChars : List String → List Char
  | [] => []
  | k :: ks =>
    '"' :: (k.data.flatMap escChar ++ ['"'] ++ if ks.isEmpty then [] else ',' :: itemsChars ks)


/-- `JSON.stringify` on an array of strings: `["a","b"]`, no added spaces. -/
def jsonStringify (l : List String) : String :=
  String.mk ('[' :: (itemsChars l ++ [']']))


/-- Body of a JSON string literal, after the opening quote.  Returns the
decoded characters and the remainder after the closing quote. -/
def parseStrBody : List Char → Option (List Char × List Char)
  | [] => none
  | c :: cs =>
    if c = '"' then some ([], cs)
    else if c = '\\' then
      match cs with
      | [] => none
      | d :: ds => (parseStrBody ds).map fun p => (d :: p.1, p.2)
    else (parseStrBody cs).map fun p => (c :: p.1, p.2)


/-- One or more comma-separated string literals followed by `]`.  The fuel
bounds recursion depth; any fuel at least the number of items suffices. -/
def parseItems : Nat → List Char → Option (List String × List Char)
  | 0, _ => none
  | fuel + 1, l =>
    match l with
    | [] => none
    | c :: cs =>
      if c = '"' then
        match parseStrBody cs with
        | none => none
        | some (str, rest) =>
          match skipWs rest with
          | [] => none
          | d :: more =>
            if d = ',' then
              match parseItems fuel (skipWs more) with
              | none => none
              | some (items, tail) => some (String.mk str :: items, tail)
            else if d = ']' then some ([String.mk str], more)
            else none
      else none


/-- Model of `JSON.parse` restricted to arrays of strings; raises a
`SyntaxError` on any other input, as `JSON.parse` does on malformed text. -/
def jsonParse (s : String) : Except JsError (List String) :=
  match skipWs s.data with
  | [] => .error (.parseError "Unexpected end of JSON input")
  | c :: rest =>
    if c = '[' then
      match skipWs rest with
      | [] => .error (.parseError "Unexpected end of JSON input")
      | d :: rest2 =>
        if d = ']' then
          if skipWs rest2 = [] then .ok []
          else .error (.parseError "Unexpected token after JSON array")
        else
          match parseItems (s.data.length + 1) (d :: rest2) with
          | some (items, tail) =>
            if skipWs tail = [] then .ok items
            else .error (.parseError "Unexpected token in JSON")
          | none => .error (.parseError "Unexpected token in JSON")
    else .error (.parseError "Unexpected token in JSON")


/-! ### The progress store of `src/islandMain.js` -/

/-- State of the progress subsystem: the `metisPrairieProgress` entry of
`localStorage`, the published progress count, the session-scoped
`window.completionShown` flag, and how many times the completion overlay
has been appended to the document. -/
structure ProgressState where
  storage : Option String
  progressCount : Nat
  completionShown : Bool
  noticeCount : Nat
deriving Repr, DecidableEq


/-- The fixed station total of both bootstrap variants. -/
def TOTAL_STATIONS : Nat := 18


/-- `getVisitedStations` from `src/islandMain.js`:
`saved ? JSON.parse(saved) : []`.  A missing key (JavaScript `null`) and the
empty string are both falsy, hence yield `[]`; any other stored text goes
through `JSON.parse`. -/
def getVisitedStations (storage : Option String) : Except JsError (List String) :=
  match storage with
  | none => .ok []
  | some s => if s = "" then .ok [] else jsonParse s


/-- `showCompletionMessage` from `src/islandMain.js`: appends the completion
overlay once per session, guarded by `window.completionShown`. -/
def showCompletionMessage (p : ProgressState) : ProgressState :=
  if p.completionShown then p
  else { p with completionShown := true, noticeCount := p.noticeCount + 1 }


/-- `updateProgressUI` from `src/islandMain.js`: republishes the visited
count and triggers the completion notice when it reaches `TOTAL_STATIONS`. -/
def updateProgressUI (p : ProgressState) : Except JsError ProgressState := do
  let visited ← getVisitedStations p.storage
  let count := visited.length
  let p := { p with progressCount := count }
  if TOTAL_STATIONS ≤ count then
    return showCompletionMessage p
  else
    return p


/-- The composite progress key `` `${stationType}-${stationId}` ``. -/
def visitKey (stationType stationId : String) : String :=
  stationType ++ "-" ++ stationId


/-- `markStationVisited` from `src/islandMain.js`: appends the key and
rewrites the stored JSON array only when the key is new. -/
def markStationVisited (stationType stationId : String) (p : ProgressState) :
    Except JsError ProgressState := do
  let key := visitKey stationType stationId
  let visited ← getVisitedStations p.storage
  if key ∈ visited then
    return p
  else
    let visited := visited ++ [key]
    let p := { p with storage := some (jsonStringify visited) }
    updateProgressUI p


/-- `markVisited` with a numeric id, as the interaction manager calls it. -/
def markVisitedNat (stationType : String) (stationId : Nat) (p : ProgressState) :
    Except JsError ProgressState :=
  markStationVisited stationType (toString stationId) p


/-- `updateProgressUI` of the crystal-garden bootstrap (`src/unnamed/part_000`):
it republishes the count but has no completion branch. -/
def updateProgressUIcrystal (p : ProgressState) : Except JsError ProgressState := do
  let visited ← getVisitedStations p.storage
  return { p with progressCount := visited.length }


/-- `markStationVisited` of the crystal-garden bootstrap. -/
def markStationVisitedCrystal (stationType stationId : String) (p : ProgressState) :
    Except JsError ProgressState := do
  let key := visitKey stationType stationId
  let visited ← getVisitedStations p.storage
  if key ∈ visited then
    return p
  else
    let visited := visited ++ [key]
    let p := { p with storage := some (jsonStringify visited) }
    updateProgressUIcrystal p


/-- Progress state on first ever load: no stored value, nothing published. -/
def initProgress (storage : Option String) : ProgressState :=
  { storage := storage, progressCount := 0, completionShown := false, noticeCount := 0 }


/-- Run a sequence of `markStationVisited` calls (island bootstrap). -/
def runMarks (calls : List (String × String)) (p : ProgressState) :
    Except JsError ProgressState :=
  calls.foldlM (fun st c => markStationVisited c.1 c.2 st) p


/-- Run a sequence of `markStationVisited` calls (crystal bootstrap). -/
def runMarksCrystal (calls : List (String × String)) (p : ProgressState) :
    Except JsError ProgressState :=
  calls.foldlM (fun st c => markStationVisitedCrystal c.1 c.2 st) p


/-- The list the stored JSON decodes to, or `[]` if unreadable. -/
def storedVisited (p : ProgressState) : List String :=
  match getVisitedStations p.storage with
  | .ok l => l
  | .error _ => []


/-! ### Progress-store dynamics -/

/-- A store whose progress entry is something this program itself writes:
still absent, or the stringified form of a duplicate-free key list. -/
def WellFormedStore (p : ProgressState) : Prop :=
  p.storage = none ∨ ∃ l : List String, l.Nodup ∧ p.storage = some (jsonStringify l)


/-- Session invariant of the island progress store: the stored text decodes
to a duplicate-free list, and the notice has fired exactly when its length
has reached the total. -/
def ProgInv (p : ProgressState) : Prop :=
  ∃ l : List String, l.Nodup ∧ getVisitedStations p.storage = .ok l ∧
    (p.completionShown = true ↔ TOTAL_STATIONS ≤ l.length) ∧
    p.noticeCount = (if TOTAL_STATIONS ≤ l.length then 1 else 0)


/-- The key-set effect of one `markStationVisited` call. -/
def insertKey (l : List String) (c : String × String) : List String :=
  if visitKey c.1 c.2 ∈ l then l else l ++ [visitKey c.1 c.2]


/-- Eighteen distinct marks, as in completing every station. -/
def crystalCalls : List (String × String) :=
  (List.range 18).map fun i => ("s", toString (i + 1))


/-! ### The interaction manager (`IslandInteractionManager`) -/

/-- One answer option of an elder's math challenge. -/
structure MathOption where
  text : String
  correct : Bool
deriving Repr, DecidableEq


/-- The math challenge of an elder visit. -/
structure MathChallenge where
  label : String
  question : String
  options : List MathOption
  success : String
deriving Repr, DecidableEq


/-- Modelled from the spec: the `ElderVisit` records of `ElderVisits.js`,
which the interaction manager imports but which is absent from the
repository snapshot — `{ id, speakerName, speakerLocation, ordered greeting
lines, a single math challenge }`, static reference data looked up by
`localId`.  All manager theorems quantify over this table. -/
structure ElderVisit where
  id : Nat
  name : String
  location : String
  greeting : List String
  math : MathChallenge
deriving Repr, DecidableEq


/-- An option control in `#options-grid`: its DOM node identity, label,
wired correctness flag, and current `correct`/`wrong` class marks. -/
structure OptionBtn where
  nodeId : Nat
  text : String
  correct : Bool
  correctClass : Bool
  wrongClass : Bool
deriving Repr, DecidableEq


/-- A deferred `setTimeout` callback from `handleAnswer`: either
`() => this.showSuccess()` or `() => btn.classList.remove('wrong')`
for the captured button node. -/
inductive TimerCb where
  | showSuccessCb
  | clearWrongCb (nodeId : Nat)
deriving Repr, DecidableEq


/-- What `continueBtn.onclick` is currently assigned to. -/
inductive ContinueAction where
  | advanceAct
  | closeAct
  | completeAct
deriving Repr, DecidableEq


/-- The station categories of the zone registry (`userData.type`). -/
inductive StationType where
  | cabin | fireplace | herb | logpile | garden | cart | fishing | memorial
deriving Repr, DecidableEq


/-- The tag of the nearest zone volume hit by the pick ray. -/
structure HitTag where
  type : StationType
  id : Nat
deriving Repr, DecidableEq


/-- Sizes of the experience tables built in the constructor. -/
def numFireplaceExperiences : Nat := 6

def numHerbExperiences : Nat := 1

def numLogPileExperiences : Nat := 1

def numGardenExperiences : Nat := 1

def numCartExperiences : Nat := 1

def numFishingExperiences : Nat := 1

def numMemorialExperiences : Nat := 1


/-- The mutable state of one `IslandInteractionManager` together with the
DOM it drives.  The seven `…Open` flags are the popup overlays' `display`
styles; `overlayVisible` is the dialogue overlay's; the `…Bound` fields are
the experience ids captured by the explore buttons' `onclick` closures.
Presentation strings of the static experience tables are not tracked. -/
structure ManagerState where
  isDialogueOpen : Bool
  overlayVisible : Bool
  fireOpen : Bool
  herbOpen : Bool
  logPileOpen : Bool
  gardenOpen : Bool
  cartOpen : Bool
  fishingOpen : Bool
  memorialOpen : Bool
  currentVisit : Option ElderVisit
  currentCabinNumber : Option Nat
  dialogueStep : Nat
  completedVisits : List Nat
  controlsEnabled : Bool
  speakerName : String
  speakerLocation : String
  storyText : String
  mathVisible : Bool
  mathLabel : String
  mathQuestion : String
  optionButtons : List OptionBtn
  nextNodeId : Nat
  continueVisible : Bool
  continueText : String
  continueAction : Option ContinueAction
  pendingTimers : List TimerCb
  fireBound : Option Nat
  herbBound : Option Nat
  logPileBound : Option Nat
  gardenBound : Option Nat
  cartBound : Option Nat
  fishingBound : Option Nat
  memorialBound : Option Nat
  progress : ProgressState
deriving Repr, DecidableEq


/-- Manager state right after the constructor ran, for a given initial
durable store: nothing open, no visit, controls enabled, no `onclick` on
the continue button yet. -/
def initState (storage : Option String) : ManagerState :=
  { isDialogueOpen := false, overlayVisible := false, fireOpen := false,
    herbOpen := false, logPileOpen := false, gardenOpen := false,
    cartOpen := false, fishingOpen := false, memorialOpen := false,
    currentVisit := none, currentCabinNumber := none, dialogueStep := 0,
    completedVisits := [], controlsEnabled := true,
    speakerName := "", speakerLocation := "", storyText := "",
    mathVisible := false, mathLabel := "", mathQuestion := "",
    optionButtons := [], nextNodeId := 0,
    continueVisible := true, continueText := "Continue →",
    continueAction := none, pendingTimers := [],
    fireBound := none, herbBound := none, logPileBound := none,
    gardenBound := none, cartBound := none, fishingBound := none,
    memorialBound := none, progress := initProgress storage }


/-- The static welcome-back line of `startVisit`. -/
def welcomeBackText : String := "Welcome back, friend! It\x27s good to see you again."


/-- `JS Set.add`: insertion-ordered, no duplicates. -/
def insertOnce (n : Nat) (l : List Nat) : List Nat :=
  if n ∈ l then l else l ++ [n]


/-- `displayCurrentStep`: shows the greeting line at `dialogueStep` when in
range; does nothing past the end.  Reads `this.currentVisit.greeting`, so it
throws when no visit is active. -/
def displayCurrentStep (s : ManagerState) : Except JsError ManagerState :=
  match s.currentVisit with
  | none => .error (.typeError "Cannot read properties of null (reading greeting)")
  | some v =>
    if s.dialogueStep < v.greeting.length then
      .ok { s with storyText := v.greeting.getD s.dialogueStep "",
                   continueText := "Continue →" }
    else .ok s


/-- Fresh option controls for the math grid, with consecutive node ids. -/
def buildButtons (base : Nat) : List MathOption → List OptionBtn
  | [] => []
  | o :: os => ⟨base, o.text, o.correct, false, false⟩ :: buildButtons (base + 1) os


/-- `showMathQuestion`: clears the story text, shows the math section,
hides the continue button and renders one control per option in order. -/
def showMathQuestion (s : ManagerState) : Except JsError ManagerState :=
  match s.currentVisit with
  | none => .error (.typeError "Cannot read properties of null (reading math)")
  | some v =>
    .ok { s with storyText := "", mathVisible := true,
                 mathLabel := v.math.label, mathQuestion := v.math.question,
                 continueVisible := false,
                 optionButtons := buildButtons s.nextNodeId v.math.options,
                 nextNodeId := s.nextNodeId + v.math.options.length }


/-- `advanceDialogue`: increments the step (`this.dialogueStep++` happens
before `this.currentVisit.greeting` is read), then either shows the next
greeting line or, exactly at the end, switches to the math question. -/
def advanceDialogue (s : ManagerState) : Except JsError ManagerState :=
  match s.currentVisit with
  | none => .error (.typeError "Cannot read properties of null (reading greeting)")
  | some v =>
    if s.dialogueStep + 1 < v.greeting.length then
      displayCurrentStep { s with dialogueStep := s.dialogueStep + 1 }
    else if s.dialogueStep + 1 = v.greeting.length then
      showMathQuestion { s with dialogueStep := s.dialogueStep + 1 }
    else
      .ok { s with dialogueStep := s.dialogueStep + 1 }


/-- The field assignments `startVisit` performs before it branches on the
completed set: activate the visit, record the 1-based cabin number, reset
the step, mark the dialogue open, disable controls, fill the speaker
fields, hide the math section, show the continue button. -/
def startVisitBase (v : ElderVisit) (visitId : Nat) (s : ManagerState) : ManagerState :=
  { s with currentVisit := some v, currentCabinNumber := some (visitId + 1),
           dialogueStep := 0, isDialogueOpen := true, controlsEnabled := false,
           speakerName := v.name, speakerLocation := v.location,
           mathVisible := false, continueVisible := true }


/-- `startVisit`: activates the visit, disables controls, and either shows
the welcome-back branch (visit already in the session's completed set) or
greeting step 0; finally displays the overlay. -/
def startVisit (visits : List ElderVisit) (visitId : Nat) (s : ManagerState) :
    Except JsError ManagerState :=
  match visits[visitId]? with
  | none => .error (.typeError "Cannot read properties of undefined (reading name)")
  | some v =>
    if visitId ∈ s.completedVisits then
      .ok { startVisitBase v visitId s with
              storyText := welcomeBackText, continueText := "Leave →",
              continueAction := some .closeAct, overlayVisible := true }
    else
      match displayCurrentStep (startVisitBase v visitId s) with
      | .error e => .error e
      | .ok s' => .ok { s' with continueAction := some .advanceAct, overlayVisible := true }


/-- `handleAnswer`: marks the clicked control and defers the follow-up by
`setTimeout(..., 500)` — `showSuccess` for a correct answer, clearing the
`wrong` mark for an incorrect one.  The timer is never cancelled. -/
def handleAnswer (nodeId : Nat) (isCorrect : Bool) (s : ManagerState) : ManagerState :=
  if isCorrect then
    { s with optionButtons := s.optionButtons.map fun b =>
              if b.nodeId = nodeId then { b with correctClass := true } else b,
             pendingTimers := s.pendingTimers ++ [.showSuccessCb] }
  else
    { s with optionButtons := s.optionButtons.map fun b =>
              if b.nodeId = nodeId then { b with wrongClass := true } else b,
             pendingTimers := s.pendingTimers ++ [.clearWrongCb nodeId] }


/-- `showSuccess`: hides the math section, then reads
`this.currentVisit.math.success` — a `TypeError` if the dialogue was closed
meanwhile — and rebinds the continue button to `completeVisit`. -/
def showSuccess (s : ManagerState) : Except JsError ManagerState :=
  match s.currentVisit with
  | none => .error (.typeError "Cannot read properties of null (reading math)")
  | some v =>
    .ok { s with mathVisible := false, storyText := v.math.success, continueVisible := true,
                 continueText := "Thank you →", continueAction := some .completeAct }


/-- `closeDialogue`: hides the overlay, clears the session pointer and
re-enables controls.  `currentCabinNumber` and `dialogueStep` are not reset. -/
def closeDialogue (s : ManagerState) : ManagerState :=
  { s with overlayVisible := false, isDialogueOpen := false, currentVisit := none,
           controlsEnabled := true }


/-- `completeVisit`: records the visit's `id` field in the session set,
reports `markVisited('cabin', currentCabinNumber)` to the progress store,
then closes the dialogue. -/
def completeVisit (s : ManagerState) : Except JsError ManagerState :=
  match s.currentVisit with
  | none => .error (.typeError "Cannot read properties of null (reading id)")
  | some v =>
    match markStationVisited "cabin"
        (match s.currentCabinNumber with
          | some k => toString k
          | none => "null") s.progress with
    | .error e => .error e
    | .ok p =>
      .ok (closeDialogue { s with completedVisits := insertOnce v.id s.completedVisits,
                                  progress := p })


/-- One pending timer fires (oldest first; all delays are the fixed 500ms). -/
def fireTimer (s : ManagerState) : Except JsError ManagerState :=
  match s.pendingTimers with
  | [] => .ok s
  | .showSuccessCb :: rest => showSuccess { s with pendingTimers := rest }
  | .clearWrongCb nodeId :: rest =>
    .ok { s with pendingTimers := rest,
                 optionButtons := s.optionButtons.map fun b =>
                   if b.nodeId = nodeId then { b with wrongClass := false } else b }


/-- `openFireplacePopup`: disables controls, then populates the overlay
from the indexed experience record (a `TypeError` past the table) and
displays it, binding the explore action to the id. -/
def openFireplacePopup (fireId : Nat) (s : ManagerState) : Except JsError ManagerState :=
  if fireId < numFireplaceExperiences then
    .ok { s with controlsEnabled := false, fireBound := some fireId, fireOpen := true }
  else .error (.typeError "Cannot read properties of undefined (reading title)")


/-- `closeFireplacePopup`. -/
def closeFireplacePopup (s : ManagerState) : ManagerState :=
  { s with fireOpen := false, controlsEnabled := true }


/-- `openHerbPopup`. -/
def openHerbPopup (herbId : Nat) (s : ManagerState) : Except JsError ManagerState :=
  if herbId < numHerbExperiences then
    .ok { s with controlsEnabled := false, herbBound := some herbId, herbOpen := true }
  else .error (.typeError "Cannot read properties of undefined (reading title)")


/-- `closeHerbPopup`. -/
def closeHerbPopup (s : ManagerState) : ManagerState :=
  { s with herbOpen := false, controlsEnabled := true }


/-- `openLogPilePopup`. -/
def openLogPilePopup (logPileId : Nat) (s : ManagerState) : Except JsError ManagerState :=
  if logPileId < numLogPileExperiences then
    .ok { s with controlsEnabled := false, logPileBound := some logPileId, logPileOpen := true }
  else .error (.typeError "Cannot read properties of undefined (reading title)")


/-- `closeLogPilePopup`. -/
def closeLogPilePopup (s : ManagerState) : ManagerState :=
  { s with logPileOpen := false, controlsEnabled := true }


/-- `openGardenPopup`. -/
def openGardenPopup (gardenId : Nat) (s : ManagerState) : Except JsError ManagerState :=
  if gardenId < numGardenExperiences then
    .ok { s with controlsEnabled := false, gardenBound := some gardenId, gardenOpen := true }
  else .error (.typeError "Cannot read properties of undefined (reading title)")


/-- `closeGardenPopup`. -/
def closeGardenPopup (s : ManagerState) : ManagerState :=
  { s with gardenOpen := false, controlsEnabled := true }


/-- `openCartPopup`. -/
def openCartPopup (cartId : Nat) (s : ManagerState) : Except JsError ManagerState :=
  if cartId < numCartExperiences then
    .ok { s with controlsEnabled := false, cartBound := some cartId, cartOpen := true }
  else .error (.typeError "Cannot read properties of undefined (reading title)")


/-- `closeCartPopup`. -/
def closeCartPopup (s : ManagerState) : ManagerState :=
  { s with cartOpen := false, controlsEnabled := true }


/-- `openFishingPopup`. -/
def openFishingPopup (fishingId : Nat) (s : ManagerState) : Except JsError ManagerState :=
  if fishingId < numFishingExperiences then
    .ok { s with controlsEnabled := false, fishingBound := some fishingId, fishingOpen := true }
  else .error (.typeError "Cannot read properties of undefined (reading title)")


/-- `closeFishingPopup`. -/
def closeFishingPopup (s : ManagerState) : ManagerState :=
  { s with fishingOpen := false, controlsEnabled := true }


/-- `openMemorialPopup`. -/
def openMemorialPopup (memorialId : Nat) (s : ManagerState) : Except JsError ManagerState :=
  if memorialId < numMemorialExperiences then
    .ok { s with controlsEnabled := false, memorialBound := some memorialId, memorialOpen := true }
  else .error (.typeError "Cannot read properties of undefined (reading title)")


/-- `closeMemorialPopup`. -/
def closeMemorialPopup (s : ManagerState) : ManagerState :=
  { s with memorialOpen := false, controlsEnabled := true }


/-- The `keydown Escape` handler: closes the dialogue and every popup. -/
def escapeKey (s : ManagerState) : ManagerState :=
  closeMemorialPopup (closeFishingPopup (closeCartPopup (closeGardenPopup
    (closeLogPilePopup (closeHerbPopup (closeFireplacePopup (closeDialogue s)))))))


/-- Whether one of the seven experience overlays is displayed — the
`overlays.some(o => o.style.display === 'flex')` gate of `onCanvasClick`. -/
def anyPopupOpen (s : ManagerState) : Bool :=
  s.fireOpen || s.herbOpen || s.logPileOpen || s.gardenOpen ||
  s.cartOpen || s.fishingOpen || s.memorialOpen


/-- `onCanvasClick`: first the gates (dialogue open, any popup displayed),
then the raycast — abstracted as the optional nearest-hit tag — and the
dispatch on the hit zone's `userData.type`. -/
def onCanvasClick (visits : List ElderVisit) (hit : Option HitTag) (s : ManagerState) :
    Except JsError ManagerState :=
  if s.isDialogueOpen then .ok s
  else if anyPopupOpen s then .ok s
  else
    match hit with
    | none => .ok s
    | some tag =>
      match tag.type with
      | .cabin => startVisit visits tag.id s
      | .fireplace => openFireplacePopup tag.id s
      | .herb => openHerbPopup tag.id s
      | .logpile => openLogPilePopup tag.id s
      | .garden => openGardenPopup tag.id s
      | .cart => openCartPopup tag.id s
      | .fishing => openFishingPopup tag.id s
      | .memorial => openMemorialPopup tag.id s


/-- A user-interface event delivered to the manager's handlers.  Clicks on
elements inside a hidden container cannot occur, so those handlers are
gated on the element being displayed; the document-level Escape handler and
timer expiry are not gated. -/
inductive Event where
  | canvasClick (hit : Option HitTag)
  | clickContinue
  | clickDialogueClose
  | selectOption (nodeId : Nat)
  | timerFires
  | clickFireClose
  | clickHerbClose
  | clickLogPileClose
  | clickGardenClose
  | clickCartClose
  | clickFishingClose
  | clickMemorialClose
  | pressEscape
deriving Repr, DecidableEq


/-- A click on the visible continue button: it runs both the constructor's
`addEventListener` handler (`advanceDialogue`) and, second, whatever
`onclick` currently holds — `stopPropagation` does not suppress other
listeners on the same element. -/
def continueClick (s : ManagerState) : Except JsError ManagerState :=
  match advanceDialogue s with
  | .error err => .error err
  | .ok s₁ =>
    match s₁.continueAction with
    | none => .ok s₁
    | some .advanceAct => advanceDialogue s₁
    | some .closeAct => .ok (closeDialogue s₁)
    | some .completeAct => completeVisit s₁


/-- One event dispatch. -/
def stepEvent (visits : List ElderVisit) (e : Event) (s : ManagerState) :
    Except JsError ManagerState :=
  match e with
  | .canvasClick hit => onCanvasClick visits hit s
  | .clickContinue =>
    if s.overlayVisible && s.continueVisible then continueClick s
    else .ok s
  | .clickDialogueClose => if s.overlayVisible then .ok (closeDialogue s) else .ok s
  | .selectOption nodeId =>
    if s.overlayVisible && s.mathVisible then
      match s.optionButtons.find? (fun b => b.nodeId == nodeId) with
      | some b => .ok (handleAnswer nodeId b.correct s)
      | none => .ok s
    else .ok s
  | .timerFires => fireTimer s
  | .clickFireClose => if s.fireOpen then .ok (closeFireplacePopup s) else .ok s
  | .clickHerbClose => if s.herbOpen then .ok (closeHerbPopup s) else .ok s
  | .clickLogPileClose => if s.logPileOpen then .ok (closeLogPilePopup s) else .ok s
  | .clickGardenClose => if s.gardenOpen then .ok (closeGardenPopup s) else .ok s
  | .clickCartClose => if s.cartOpen then .ok (closeCartPopup s) else .ok s
  | .clickFishingClose => if s.fishingOpen then .ok (closeFishingPopup s) else .ok s
  | .clickMemorialClose => if s.memorialOpen then .ok (closeMemorialPopup s) else .ok s
  | .pressEscape => .ok (escapeKey s)


/-- Run a sequence of events through the manager. -/
def runEvents (visits : List ElderVisit) (evs : List Event) (s : ManagerState) :
    Except JsError ManagerState :=
  evs.foldlM (fun st e => stepEvent visits e st) s


/-- How many of the eight overlay types are currently displayed. -/
def openCount (s : ManagerState) : Nat :=
  (if s.overlayVisible then 1 else 0) + (if s.fireOpen then 1 else 0) +
  (if s.herbOpen then 1 else 0) + (if s.logPileOpen then 1 else 0) +
  (if s.gardenOpen then 1 else 0) + (if s.cartOpen then 1 else 0) +
  (if s.fishingOpen then 1 else 0) + (if s.memorialOpen then 1 else 0)


/-- Overlay invariant: the dialogue flag mirrors its overlay's display, and
at most one of the eight overlays is displayed. -/
def OverlayInv (s : ManagerState) : Prop :=
  s.overlayVisible = s.isDialogueOpen ∧ openCount s ≤ 1


/-- Equality of the nine display-relevant flags. -/
def FlagsEq (a b : ManagerState) : Prop :=
  a.isDialogueOpen = b.isDialogueOpen ∧ a.overlayVisible = b.overlayVisible ∧
  a.fireOpen = b.fireOpen ∧ a.herbOpen = b.herbOpen ∧ a.logPileOpen = b.logPileOpen ∧
  a.gardenOpen = b.gardenOpen ∧ a.cartOpen = b.cartOpen ∧ a.fishingOpen = b.fishingOpen ∧
  a.memorialOpen = b.memorialOpen


/-! ### Concrete scaffolding for claims C1 and C6 -/

/-- A minimal elder record used for concrete runs. -/
def elderOne : ElderVisit :=
  { id := 0, name := "Elder", location := "Cabin 1", greeting := ["Hello"],
    math := { label := "Question", question := "1 + 1 = ?",
              options := [⟨"2", true⟩, ⟨"3", false⟩], success := "Indeed." } }


/-- A one-cabin visits table used for concrete runs. -/
def elderVisitsOne : List ElderVisit := [elderOne]


/-- Click the cabin, continue through the greeting, answer correctly, close
the overlay before the fixed 500ms delay elapses, then let the timer fire. -/
def c1Events : List Event :=
  [.canvasClick (some ⟨.cabin, 0⟩), .clickContinue, .selectOption 0,
   .clickDialogueClose, .timerFires]


/-! ### The greeting loop -/

/-- `advanceDialogue` applied `n` times, stopping at the first error. -/
def advanceN : Nat → ManagerState → Except JsError ManagerState
  | 0, s => .ok s
  | n + 1, s =>
    match advanceDialogue s with
    | .error e => .error e
    | .ok s₁ => advanceN n s₁


/-- The complete happy-path Cabin flow at the method level:
`startVisit → advanceDialogue once per greeting line → handleAnswer(correct)
→ the 500ms timer delivers showSuccess → completeVisit` (acknowledge). -/
def cabinFlow (visits : List ElderVisit) (vid nGreet optNode : Nat) (isCorrect : Bool)
    (s : ManagerState) : Except JsError ManagerState := do
  let s ← startVisit visits vid s
  let s ← advanceN nGreet s
  let s ← fireTimer (handleAnswer optNode isCorrect s)
  completeVisit s


/-! ### Event traces and close affordances for claim C9 -/

/-- Open the first cabin, then immediately close the dialogue. -/
def c9Events : List Event := [.canvasClick (some ⟨.cabin, 0⟩), .clickDialogueClose]


/-- The one close affordance of each of the eight overlay types, plus the
document-level Escape handler. -/
def closeEventList : List Event :=
  [.clickDialogueClose, .clickFireClose, .clickHerbClose, .clickLogPileClose,
   .clickGardenClose, .clickCartClose, .clickFishingClose, .clickMemorialClose,
   .pressEscape]


/-- The zone id is within the table the dispatch indexes into. -/
def validTag (visits : List ElderVisit) (t : HitTag) : Prop :=
  match t.type with
  | .cabin => ∃ v, visits[t.id]? = some v
  | .fireplace => t.id < numFireplaceExperiences
  | .herb => t.id < numHerbExperiences
  | .logpile => t.id < numLogPileExperiences
  | .garden => t.id < numGardenExperiences
  | .cart => t.id < numCartExperiences
  | .fishing => t.id < numFishingExperiences
  | .memorial => t.id < numMemorialExperiences


/-- The close affordance of the overlay a tag opens. -/
def closeEventFor : StationType → Event
  | .cabin => .clickDialogueClose
  | .fireplace => .clickFireClose
  | .herb => .clickHerbClose
  | .logpile => .clickLogPileClose
  | .garden => .clickGardenClose
  | .cart => .clickCartClose
  | .fishing => .clickFishingClose
  | .memorial => .clickMemorialClose


/-! ### Round trip: what the store writes, `getVisitedStations` reads back -/

theorem string_mk_data (k : String) : String.mk k.data = k := by
  cases k
  rfl


theorem skipWs_cons (c : Char) (cs : List Char) (h : isJsonWs c = false) :
    skipWs (c :: cs) = c :: cs := by
  simp [skipWs, h]


theorem parseStrBody_cons (c : Char) (cs : List Char) :
    parseStrBody (c :: cs)
      = if c = '"' then some ([], cs)
        else if c = '\\' then
          match cs with
          | [] => none
          | d :: ds => (parseStrBody ds).map fun p => (d :: p.1, p.2)
        else (parseStrBody cs).map fun p => (c :: p.1, p.2) := by
  rw [parseStrBody.eq_def]


theorem parseStrBody_escape (k : List Char) (rest : List Char) :
    parseStrBody (k.flatMap escChar ++ '"' :: rest) = some (k, rest) := by
  induction k with
  | nil =>
    simp only [List.flatMap_nil, List.nil_append]
    simp [parseStrBody_cons]
  | cons c k ih =>
    by_cases hc : c = '"' ∨ c = '\\'
    · have he : escChar c = ['\\', c] := by simp [escChar, hc]
      have hbq : ¬ (('\\' : Char) = '"') := by decide
      simp only [List.flatMap_cons, he, List.append_assoc, List.cons_append, List.nil_append]
      simp [parseStrBody_cons, hbq, ih]
    · push_neg at hc
      have he : escChar c = [c] := by simp [escChar, hc.1, hc.2]
      simp only [List.flatMap_cons, he, List.append_assoc, List.cons_append, List.nil_append]
      simp [parseStrBody_cons, hc.1, hc.2, ih]


theorem length_le_itemsChars (l : List String) : l.length ≤ (itemsChars l).length := by
  induction l with
  | nil => simp [itemsChars]
  | cons k ks ih =>
    cases ks with
    | nil => simp [itemsChars]
    | cons k' ks' =>
      have hu : itemsChars (k :: k' :: ks')
          = '"' :: (k.data.flatMap escChar ++ ['"'] ++ ',' :: itemsChars (k' :: ks')) := by
        simp [itemsChars]
      rw [hu]
      simp only [List.length_cons, List.length_append] at ih ⊢
      simp at ih ⊢
      omega


theorem parseItems_items (ks : List String) :
    ∀ (fuel : Nat) (tail : List Char), ks ≠ [] → ks.length ≤ fuel →
    parseItems fuel (itemsChars ks ++ ']' :: tail) = some (ks, tail) := by
  induction ks with
  | nil => intro fuel tail h _; exact absurd rfl h
  | cons k ks ih =>
    intro fuel tail _ hfuel
    obtain ⟨f, rfl⟩ : ∃ f, fuel = f + 1 := ⟨fuel - 1, by simp at hfuel; omega⟩
    cases ks with
    | nil =>
      have hshape :
          itemsChars [k] ++ ']' :: tail
            = '"' :: (k.data.flatMap escChar ++ '"' :: (']' :: tail)) := by
        simp [itemsChars]
      rw [hshape]
      simp only [parseItems, parseStrBody_escape]
      rw [skipWs_cons ']' tail (by decide)]
      simp [string_mk_data]
    | cons k' ks' =>
      have hshape :
          itemsChars (k :: k' :: ks') ++ ']' :: tail
            = '"' :: (k.data.flatMap escChar ++
                '"' :: (',' :: (itemsChars (k' :: ks') ++ ']' :: tail))) := by
        simp [itemsChars]
      rw [hshape]
      simp only [parseItems, parseStrBody_escape]
      rw [skipWs_cons ',' _ (by decide)]
      have hq : ∃ cs, itemsChars (k' :: ks') = '"' :: cs := ⟨_, rfl⟩
      obtain ⟨cs, hcs⟩ := hq
      have hmore : skipWs (itemsChars (k' :: ks') ++ ']' :: tail)
          = itemsChars (k' :: ks') ++ ']' :: tail := by
        rw [hcs]
        exact skipWs_cons '"' _ (by decide)
      simp only [hmore]
      rw [ih f tail (by simp) (by simp at hfuel ⊢; omega)]
      simp [string_mk_data]


theorem jsonParse_stringify (l : List String) : jsonParse (jsonStringify l) = .ok l := by
  cases l with
  | nil => rfl
  | cons k ks =>
    have hdata : (jsonStringify (k :: ks)).data = '[' :: (itemsChars (k :: ks) ++ [']']) := rfl
    have hq : ∃ cs, itemsChars (k :: ks) = '"' :: cs := ⟨_, rfl⟩
    obtain ⟨cs, hcs⟩ := hq
    have hfuel : (k :: ks).length ≤ ('[' :: (itemsChars (k :: ks) ++ [']'])).length + 1 := by
      have h2 := length_le_itemsChars (k :: ks)
      simp only [List.length_cons, List.length_append] at h2 ⊢
      simp at h2 ⊢
      omega
    unfold jsonParse
    rw [hdata, skipWs_cons '[' _ (by decide)]
    simp only [if_pos rfl]
    rw [hcs]
    simp only [List.cons_append]
    rw [skipWs_cons '"' _ (by decide)]
    have hne : ('"' : Char) = ']' ↔ False := by decide
    simp only [hne, if_false, reduceIte]
    have harr : ('"' : Char) :: (cs ++ [']']) = itemsChars (k :: ks) ++ ']' :: [] := by
      rw [hcs]; simp
    rw [harr, parseItems_items (k :: ks) _ [] (by simp) hfuel]
    simp [skipWs]


theorem jsonStringify_ne_empty (l : List String) : jsonStringify l ≠ "" := by
  intro h
  have h2 : ('[' :: (itemsChars l ++ [']'])) = ([] : List Char) := congrArg String.data h
  simp at h2


theorem getVisited_stringify (l : List String) :
    getVisitedStations (some (jsonStringify l)) = .ok l := by
  show (if jsonStringify l = "" then Except.ok [] else jsonParse (jsonStringify l)) = .ok l
  rw [if_neg (jsonStringify_ne_empty l), jsonParse_stringify]


theorem updateProgressUI_stringify (p : ProgressState) (l : List String)
    (hl : getVisitedStations p.storage = .ok l) :
    updateProgressUI p
      = .ok (if TOTAL_STATIONS ≤ l.length
             then showCompletionMessage { p with progressCount := l.length }
             else { p with progressCount := l.length }) := by
  simp only [updateProgressUI, hl, bind, Except.bind]
  split <;> rfl


theorem markStationVisited_split (t i : String) (p : ProgressState) (l : List String)
    (hl : getVisitedStations p.storage = .ok l) :
    markStationVisited t i p
      = if visitKey t i ∈ l then .ok p
        else updateProgressUI
              { p with storage := some (jsonStringify (l ++ [visitKey t i])) } := by
  simp only [markStationVisited, hl, bind, Except.bind]
  split <;> rfl


theorem markStationVisitedCrystal_split (t i : String) (p : ProgressState) (l : List String)
    (hl : getVisitedStations p.storage = .ok l) :
    markStationVisitedCrystal t i p
      = if visitKey t i ∈ l then .ok p
        else updateProgressUIcrystal
              { p with storage := some (jsonStringify (l ++ [visitKey t i])) } := by
  simp only [markStationVisitedCrystal, hl, bind, Except.bind]
  split <;> rfl


theorem showCompletionMessage_storage (p : ProgressState) :
    (showCompletionMessage p).storage = p.storage := by
  unfold showCompletionMessage
  split <;> rfl


theorem showCompletionMessage_shownTrue (p : ProgressState) :
    (showCompletionMessage p).completionShown = true := by
  unfold showCompletionMessage
  split
  · next hh => exact hh
  · rfl


theorem showCompletionMessage_noticeCount (p : ProgressState) :
    (showCompletionMessage p).noticeCount
      = if p.completionShown then p.noticeCount else p.noticeCount + 1 := by
  unfold showCompletionMessage
  split <;> simp_all


theorem markStationVisited_progInv (t i : String) (p q : ProgressState)
    (hp : ProgInv p) (h : markStationVisited t i p = .ok q) : ProgInv q := by
  obtain ⟨l, hnd, hl, hshown, hcount⟩ := hp
  rw [markStationVisited_split t i p l hl] at h
  by_cases hmem : visitKey t i ∈ l
  · rw [if_pos hmem] at h
    cases h
    exact ⟨l, hnd, hl, hshown, hcount⟩
  · rw [if_neg hmem] at h
    have hnd' : (l ++ [visitKey t i]).Nodup := by
      simp [List.nodup_append, hnd, hmem]
    have hget : getVisitedStations (some (jsonStringify (l ++ [visitKey t i])))
        = .ok (l ++ [visitKey t i]) := getVisited_stringify _
    rw [updateProgressUI_stringify _ (l ++ [visitKey t i]) (by simpa using hget)] at h
    by_cases hbig : TOTAL_STATIONS ≤ (l ++ [visitKey t i]).length
    · rw [if_pos hbig] at h
      cases h
      have hbig' : TOTAL_STATIONS ≤ l.length + 1 := by simpa using hbig
      refine ⟨l ++ [visitKey t i], hnd', ?_, ?_, ?_⟩
      · rw [showCompletionMessage_storage]
        simpa using hget
      · simp [showCompletionMessage_shownTrue, hbig']
      · rw [showCompletionMessage_noticeCount]
        rcases hpc : p.completionShown with _ | _
        · have h1 : ¬ TOTAL_STATIONS ≤ l.length := by
            intro hle
            have h2 := hshown.mpr hle
            rw [hpc] at h2
            exact Bool.false_ne_true h2
          simp only [show ({ { p with storage := some (jsonStringify (l ++ [visitKey t i])) }
              with progressCount := (l ++ [visitKey t i]).length } : ProgressState).completionShown
              = p.completionShown from rfl, hpc]
          simp [hbig', hcount, h1]
        · have h2 : TOTAL_STATIONS ≤ l.length := hshown.mp hpc
          simp only [show ({ { p with storage := some (jsonStringify (l ++ [visitKey t i])) }
              with progressCount := (l ++ [visitKey t i]).length } : ProgressState).completionShown
              = p.completionShown from rfl, hpc]
          simp [hbig', hcount, h2]
    · rw [if_neg hbig] at h
      cases h
      have hlen : (l ++ [visitKey t i]).length = l.length + 1 := by simp
      refine ⟨l ++ [visitKey t i], hnd', by simpa using hget, ?_, ?_⟩
      · constructor
        · intro hsh
          have hsh' : p.completionShown = true := hsh
          have := hshown.mp hsh'
          omega
        · intro hle
          exact absurd hle hbig
      · have h18 : ¬ TOTAL_STATIONS ≤ l.length := by omega
        have hbig' : ¬ TOTAL_STATIONS ≤ l.length + 1 := by
          intro hle
          exact hbig (by simpa using hle)
        have hq : ({ { p with storage := some (jsonStringify (l ++ [visitKey t i])) }
            with progressCount := (l ++ [visitKey t i]).length } : ProgressState).noticeCount
            = p.noticeCount := rfl
        rw [hq, hcount]
        simp [hbig', h18]


theorem runMarks_progInv (calls : List (String × String)) (p q : ProgressState)
    (hp : ProgInv p) (h : runMarks calls p = .ok q) : ProgInv q := by
  induction calls generalizing p with
  | nil =>
    simp [runMarks] at h
    cases h
    exact hp
  | cons c cs ih =>
    simp only [runMarks, List.foldlM_cons] at h
    cases hstep : markStationVisited c.1 c.2 p with
    | error e =>
      rw [hstep] at h
      simp [bind, Except.bind] at h
    | ok p₁ =>
      rw [hstep] at h
      simp only [bind, Except.bind] at h
      exact ih p₁ (markStationVisited_progInv c.1 c.2 p p₁ hp hstep) h


theorem updateProgressUIcrystal_stringify (p : ProgressState) (l : List String)
    (hl : getVisitedStations p.storage = .ok l) :
    updateProgressUIcrystal p = .ok { p with progressCount := l.length } := by
  simp only [updateProgressUIcrystal, hl, bind, Except.bind]
  rfl


theorem runMarksCrystal_noNotice (calls : List (String × String)) :
    ∀ (p : ProgressState) (l : List String), getVisitedStations p.storage = .ok l →
    ∃ q : ProgressState, runMarksCrystal calls p = .ok q ∧
      getVisitedStations q.storage = .ok (calls.foldl insertKey l) ∧
      q.noticeCount = p.noticeCount := by
  induction calls with
  | nil =>
    intro p l hl
    exact ⟨p, rfl, by simpa using hl, rfl⟩
  | cons c cs ih =>
    intro p l hl
    by_cases hmem : visitKey c.1 c.2 ∈ l
    · have hstep : markStationVisitedCrystal c.1 c.2 p = .ok p := by
        rw [markStationVisitedCrystal_split c.1 c.2 p l hl, if_pos hmem]
      obtain ⟨q, hrun, hget, hnc⟩ := ih p l hl
      refine ⟨q, ?_, ?_, hnc⟩
      · simp only [runMarksCrystal, List.foldlM_cons, hstep, bind, Except.bind]
        exact hrun
      · simpa [List.foldl_cons, insertKey, hmem] using hget
    · have hget' : getVisitedStations
          (some (jsonStringify (l ++ [visitKey c.1 c.2])))
          = .ok (l ++ [visitKey c.1 c.2]) := getVisited_stringify _
      have hstep : markStationVisitedCrystal c.1 c.2 p
          = .ok { { p with storage := some (jsonStringify (l ++ [visitKey c.1 c.2])) }
                  with progressCount := (l ++ [visitKey c.1 c.2]).length } := by
        rw [markStationVisitedCrystal_split c.1 c.2 p l hl, if_neg hmem,
          updateProgressUIcrystal_stringify _ (l ++ [visitKey c.1 c.2]) (by simpa using hget')]
      obtain ⟨q, hrun, hget, hnc⟩ :=
        ih { { p with storage := some (jsonStringify (l ++ [visitKey c.1 c.2])) }
             with progressCount := (l ++ [visitKey c.1 c.2]).length }
           (l ++ [visitKey c.1 c.2]) (by simpa using hget')
      refine ⟨q, ?_, ?_, hnc⟩
      · simp only [runMarksCrystal, List.foldlM_cons, hstep, bind, Except.bind]
        exact hrun
      · simpa [List.foldl_cons, insertKey, hmem] using hget


/-! ### Claim C2 -/

/-- **C2, counterexample**: a present but corrupt stored value makes
`getVisitedStations` raise a `SyntaxError` instead of returning the empty
set, refuting the claim that reading never fails when the value is
unreadable. -/
theorem c2_cex_corrupt_read_raises :
    getVisitedStations (some "oops") = .error (.parseError "Unexpected token in JSON") := rfl


/-- **C2 (amended)**: reading the VisitedSet fails open only for an absent
value: `getVisitedStations` returns the empty set when the key is absent and
`markStationVisited` then proceeds as if nothing was visited; but when the
stored value is present and unreadable, the `JSON.parse` error propagates
out of both `getVisitedStations` and `markStationVisited` uncaught. -/
theorem c2_fails_open_only_when_absent (t i : String) (p : ProgressState)
    (hp : p.storage = none) :
    getVisitedStations p.storage = .ok []
    ∧ (∃ p', markStationVisited t i p = .ok p' ∧ storedVisited p' = [visitKey t i])
    ∧ (∀ (e : JsError) (q : ProgressState), getVisitedStations q.storage = .error e →
        markStationVisited t i q = .error e) := by
  have hl : getVisitedStations p.storage = .ok [] := by rw [hp]; rfl
  refine ⟨hl, ?_, ?_⟩
  · have hget : getVisitedStations (some (jsonStringify [visitKey t i]))
        = .ok [visitKey t i] := getVisited_stringify _
    rw [markStationVisited_split t i p [] hl]
    rw [if_neg (by simp)]
    rw [updateProgressUI_stringify _ [visitKey t i] (by simpa using hget)]
    rw [if_neg (by simp [TOTAL_STATIONS])]
    refine ⟨_, rfl, ?_⟩
    simp [storedVisited, getVisited_stringify]
  · intro e q he
    simp only [markStationVisited, he, bind, Except.bind]


/-- Witness for C2 (amended) at the fresh store. -/
theorem c2_fails_open_only_when_absent_witness :
    (initProgress none).storage = none
    ∧ (getVisitedStations (initProgress none).storage = .ok []
       ∧ (∃ p', markStationVisited "fire" "2" (initProgress none) = .ok p'
            ∧ storedVisited p' = [visitKey "fire" "2"])
       ∧ (∀ (e : JsError) (q : ProgressState), getVisitedStations q.storage = .error e →
            markStationVisited "fire" "2" q = .error e)) :=
  ⟨rfl, c2_fails_open_only_when_absent "fire" "2" (initProgress none) rfl⟩


/-! ### Claim C3 -/

/-- **C3 (amended), island bootstrap part**: starting from a fresh store, any
sequence of `markStationVisited` calls in the island bootstrap leaves the
completion notice shown exactly once if the unique visited count has reached
`TOTAL_STATIONS` and not at all otherwise — in particular repeated calls with
an already-present key after completion do not re-show it. -/
theorem c3_completion_notice_shown_once (calls : List (String × String)) (p' : ProgressState)
    (h : runMarks calls (initProgress none) = .ok p') :
    p'.noticeCount = (if TOTAL_STATIONS ≤ (storedVisited p').length then 1 else 0) := by
  have hinit : ProgInv (initProgress none) := by
    refine ⟨[], by simp, rfl, ?_, rfl⟩
    simp [initProgress, TOTAL_STATIONS]
  obtain ⟨l, _, hl, _, hc⟩ := runMarks_progInv calls _ p' hinit h
  have hs : storedVisited p' = l := by simp [storedVisited, hl]
  rw [hs]
  exact hc


/-- Witness for C3 (island part), empty call sequence. -/
theorem c3_completion_notice_shown_once_witness :
    (initProgress none).noticeCount
      = (if TOTAL_STATIONS ≤ (storedVisited (initProgress none)).length then 1 else 0) :=
  c3_completion_notice_shown_once [] (initProgress none) rfl


/-- **C3, counterexample**: in the crystal-garden bootstrap the same
eighteen unique marks leave the visited count at `TOTAL_STATIONS` yet the
notice count at zero — its `updateProgressUI` has no completion branch, so
no completion notice is ever shown there. -/
theorem c3_cex_crystal_never_notices :
    ∃ q : ProgressState, runMarksCrystal crystalCalls (initProgress none) = .ok q
      ∧ q.noticeCount = 0
      ∧ TOTAL_STATIONS ≤ (storedVisited q).length := by
  obtain ⟨q, hrun, hget, hnc⟩ :=
    runMarksCrystal_noNotice crystalCalls (initProgress none) [] rfl
  refine ⟨q, hrun, hnc, ?_⟩
  have hs : storedVisited q = crystalCalls.foldl insertKey [] := by
    simp [storedVisited, hget]
  rw [hs]
  decide


/-! ### Claim C5 -/

/-- **C5**: `markVisited` is idempotent.  From any well-formed prior store,
marking the same category and id twice succeeds, the second call returns the
first call's state unchanged (so the stored set and the published progress
ratio are unchanged), and the stored set contains the composite key exactly
once. -/
theorem c5_markVisited_idempotent (c : String) (n : Nat) (p : ProgressState)
    (hwf : WellFormedStore p) :
    ∃ p₁, markVisitedNat c n p = .ok p₁ ∧ markVisitedNat c n p₁ = .ok p₁ ∧
      (storedVisited p₁).count (visitKey c (toString n)) = 1 := by
  obtain ⟨l, hnd, hl⟩ : ∃ l, l.Nodup ∧ getVisitedStations p.storage = .ok l := by
    rcases hwf with hn | ⟨l, hnd, hsome⟩
    · exact ⟨[], by simp, by rw [hn]; rfl⟩
    · exact ⟨l, hnd, by rw [hsome]; exact getVisited_stringify l⟩
  by_cases hmem : visitKey c (toString n) ∈ l
  · refine ⟨p, ?_, ?_, ?_⟩
    · rw [markVisitedNat, markStationVisited_split _ _ p l hl, if_pos hmem]
    · rw [markVisitedNat, markStationVisited_split _ _ p l hl, if_pos hmem]
    · rw [show storedVisited p = l by simp [storedVisited, hl]]
      exact List.count_eq_one_of_mem hnd hmem
  · have hget' : getVisitedStations
        (some (jsonStringify (l ++ [visitKey c (toString n)])))
        = .ok (l ++ [visitKey c (toString n)]) := getVisited_stringify _
    rw [markVisitedNat, markStationVisited_split _ _ p l hl, if_neg hmem,
      updateProgressUI_stringify _ (l ++ [visitKey c (toString n)]) (by simpa using hget')]
    set q := (if TOTAL_STATIONS ≤ (l ++ [visitKey c (toString n)]).length
        then showCompletionMessage
          { { p with storage := some (jsonStringify (l ++ [visitKey c (toString n)])) }
            with progressCount := (l ++ [visitKey c (toString n)]).length }
        else { { p with storage := some (jsonStringify (l ++ [visitKey c (toString n)])) }
            with progressCount := (l ++ [visitKey c (toString n)]).length }) with hqdef
    have hqs : q.storage = some (jsonStringify (l ++ [visitKey c (toString n)])) := by
      rw [hqdef]
      split
      · rw [showCompletionMessage_storage]
      · rfl
    have hqget : getVisitedStations q.storage = .ok (l ++ [visitKey c (toString n)]) := by
      rw [hqs]
      exact hget'
    refine ⟨q, rfl, ?_, ?_⟩
    · rw [markVisitedNat, markStationVisited_split _ _ q _ hqget, if_pos (by simp)]
    · have hc0 : l.count (visitKey c (toString n)) = 0 := by
        rw [List.count_eq_zero]
        exact hmem
      simp [storedVisited, hqget, List.count_append, hc0]


/-- Witness for C5 at a fresh store. -/
theorem c5_markVisited_idempotent_witness :
    WellFormedStore (initProgress none)
    ∧ ∃ p₁, markVisitedNat "fire" 2 (initProgress none) = .ok p₁
        ∧ markVisitedNat "fire" 2 p₁ = .ok p₁
        ∧ (storedVisited p₁).count (visitKey "fire" (toString 2)) = 1 :=
  ⟨Or.inl rfl, c5_markVisited_idempotent "fire" 2 (initProgress none) (Or.inl rfl)⟩


theorem FlagsEq.openCount_eq {a b : ManagerState} (h : FlagsEq a b) :
    openCount a = openCount b := by
  obtain ⟨h1, h2, h3, h4, h5, h6, h7, h8, h9⟩ := h
  unfold openCount
  rw [h2, h3, h4, h5, h6, h7, h8, h9]


theorem FlagsEq.overlayInv {a b : ManagerState} (h : FlagsEq a b) (hb : OverlayInv b) :
    OverlayInv a :=
  ⟨by rw [h.1, h.2.1]; exact hb.1, by rw [h.openCount_eq]; exact hb.2⟩


theorem flagsEq_refl (s : ManagerState) : FlagsEq s s :=
  ⟨rfl, rfl, rfl, rfl, rfl, rfl, rfl, rfl, rfl⟩


theorem FlagsEq.trans {a b c : ManagerState} (h1 : FlagsEq a b) (h2 : FlagsEq b c) :
    FlagsEq a c := by
  obtain ⟨a1, a2, a3, a4, a5, a6, a7, a8, a9⟩ := h1
  obtain ⟨b1, b2, b3, b4, b5, b6, b7, b8, b9⟩ := h2
  exact ⟨a1.trans b1, a2.trans b2, a3.trans b3, a4.trans b4, a5.trans b5,
    a6.trans b6, a7.trans b7, a8.trans b8, a9.trans b9⟩


theorem displayCurrentStep_flags {s s' : ManagerState}
    (h : displayCurrentStep s = .ok s') : FlagsEq s' s := by
  unfold displayCurrentStep at h
  cases hv : s.currentVisit with
  | none =>
    simp only [hv] at h
    exact Except.noConfusion h
  | some v =>
    simp only [hv] at h
    split at h <;> (cases h; exact flagsEq_refl _)


theorem showMathQuestion_flags {s s' : ManagerState}
    (h : showMathQuestion s = .ok s') : FlagsEq s' s := by
  unfold showMathQuestion at h
  cases hv : s.currentVisit with
  | none =>
    simp only [hv] at h
    exact Except.noConfusion h
  | some v =>
    simp only [hv] at h
    cases h
    exact flagsEq_refl _


theorem advanceDialogue_flags {s s' : ManagerState}
    (h : advanceDialogue s = .ok s') : FlagsEq s' s := by
  unfold advanceDialogue at h
  cases hv : s.currentVisit with
  | none =>
    simp only [hv] at h
    exact Except.noConfusion h
  | some v =>
    simp only [hv] at h
    split at h
    · exact (displayCurrentStep_flags h).trans (flagsEq_refl _)
    · split at h
      · exact (showMathQuestion_flags h).trans (flagsEq_refl _)
      · cases h; exact flagsEq_refl _


theorem handleAnswer_flags (nodeId : Nat) (isCorrect : Bool) (s : ManagerState) :
    FlagsEq (handleAnswer nodeId isCorrect s) s := by
  unfold handleAnswer
  split <;> exact flagsEq_refl _


theorem showSuccess_flags {s s' : ManagerState}
    (h : showSuccess s = .ok s') : FlagsEq s' s := by
  unfold showSuccess at h
  cases hv : s.currentVisit with
  | none =>
    simp only [hv] at h
    exact Except.noConfusion h
  | some v =>
    simp only [hv] at h
    cases h
    exact flagsEq_refl _


theorem fireTimer_flags {s s' : ManagerState}
    (h : fireTimer s = .ok s') : FlagsEq s' s := by
  unfold fireTimer at h
  cases ht : s.pendingTimers with
  | nil =>
    simp only [ht] at h
    cases h
    exact flagsEq_refl _
  | cons t rest =>
    cases t with
    | showSuccessCb =>
      simp only [ht] at h
      exact (showSuccess_flags h).trans (flagsEq_refl _)
    | clearWrongCb nodeId =>
      simp only [ht] at h
      cases h
      exact flagsEq_refl _


theorem completeVisit_closes {s s' : ManagerState}
    (h : completeVisit s = .ok s') :
    s'.overlayVisible = false ∧ s'.isDialogueOpen = false ∧
    s'.fireOpen = s.fireOpen ∧ s'.herbOpen = s.herbOpen ∧
    s'.logPileOpen = s.logPileOpen ∧ s'.gardenOpen = s.gardenOpen ∧
    s'.cartOpen = s.cartOpen ∧ s'.fishingOpen = s.fishingOpen ∧
    s'.memorialOpen = s.memorialOpen ∧ s'.controlsEnabled = true := by
  unfold completeVisit at h
  cases hv : s.currentVisit with
  | none =>
    simp only [hv] at h
    exact Except.noConfusion h
  | some v =>
    simp only [hv] at h
    split at h
    · exact Except.noConfusion h
    · cases h
      exact ⟨rfl, rfl, rfl, rfl, rfl, rfl, rfl, rfl, rfl, rfl⟩


theorem startVisit_opens {visits : List ElderVisit} {visitId : Nat} {s s' : ManagerState}
    (h : startVisit visits visitId s = .ok s') :
    s'.overlayVisible = true ∧ s'.isDialogueOpen = true ∧
    s'.fireOpen = s.fireOpen ∧ s'.herbOpen = s.herbOpen ∧ s'.logPileOpen = s.logPileOpen ∧
    s'.gardenOpen = s.gardenOpen ∧ s'.cartOpen = s.cartOpen ∧
    s'.fishingOpen = s.fishingOpen ∧ s'.memorialOpen = s.memorialOpen := by
  unfold startVisit at h
  cases hv : visits[visitId]? with
  | none =>
    simp only [hv] at h
    exact Except.noConfusion h
  | some v =>
    simp only [hv] at h
    split at h
    · cases h
      exact ⟨rfl, rfl, rfl, rfl, rfl, rfl, rfl, rfl, rfl⟩
    · cases hd : displayCurrentStep (startVisitBase v visitId s) with
      | error e =>
        rw [hd] at h
        exact Except.noConfusion h
      | ok s₁ =>
        rw [hd] at h
        cases h
        have hf := displayCurrentStep_flags hd
        exact ⟨rfl, hf.1, hf.2.2.1, hf.2.2.2.1, hf.2.2.2.2.1, hf.2.2.2.2.2.1,
          hf.2.2.2.2.2.2.1, hf.2.2.2.2.2.2.2.1, hf.2.2.2.2.2.2.2.2⟩


theorem ite_flag_le {a b : Bool} (h : a = b ∨ a = false) :
    (if a then (1 : Nat) else 0) ≤ (if b then 1 else 0) := by
  rcases h with h | h <;> subst h
  · exact le_rfl
  · cases b <;> simp


/-- A state that keeps or closes each overlay of `t` keeps the invariant. -/
theorem overlayInv_mono (t : ManagerState) {t' : ManagerState}
    (hiff : t'.overlayVisible = t'.isDialogueOpen)
    (h1 : t'.overlayVisible = t.overlayVisible ∨ t'.overlayVisible = false)
    (h2 : t'.fireOpen = t.fireOpen ∨ t'.fireOpen = false)
    (h3 : t'.herbOpen = t.herbOpen ∨ t'.herbOpen = false)
    (h4 : t'.logPileOpen = t.logPileOpen ∨ t'.logPileOpen = false)
    (h5 : t'.gardenOpen = t.gardenOpen ∨ t'.gardenOpen = false)
    (h6 : t'.cartOpen = t.cartOpen ∨ t'.cartOpen = false)
    (h7 : t'.fishingOpen = t.fishingOpen ∨ t'.fishingOpen = false)
    (h8 : t'.memorialOpen = t.memorialOpen ∨ t'.memorialOpen = false)
    (ht : OverlayInv t) : OverlayInv t' := by
  refine ⟨hiff, le_trans ?_ ht.2⟩
  unfold openCount
  exact Nat.add_le_add (Nat.add_le_add (Nat.add_le_add (Nat.add_le_add
    (Nat.add_le_add (Nat.add_le_add (Nat.add_le_add (ite_flag_le h1) (ite_flag_le h2))
    (ite_flag_le h3)) (ite_flag_le h4)) (ite_flag_le h5)) (ite_flag_le h6))
    (ite_flag_le h7)) (ite_flag_le h8)


theorem anyPopupOpen_false {s : ManagerState} (h : ¬ anyPopupOpen s = true) :
    s.fireOpen = false ∧ s.herbOpen = false ∧ s.logPileOpen = false ∧
    s.gardenOpen = false ∧ s.cartOpen = false ∧ s.fishingOpen = false ∧
    s.memorialOpen = false := by
  unfold anyPopupOpen at h
  simp only [Bool.or_eq_true, not_or, Bool.not_eq_true] at h
  exact ⟨h.1.1.1.1.1.1, h.1.1.1.1.1.2, h.1.1.1.1.2, h.1.1.1.2, h.1.1.2, h.1.2, h.2⟩


theorem stepEvent_overlayInv (visits : List ElderVisit) (e : Event) {s s' : ManagerState}
    (h : stepEvent visits e s = .ok s') (hs : OverlayInv s) : OverlayInv s' := by
  cases e with
  | canvasClick hit =>
    simp only [stepEvent] at h
    unfold onCanvasClick at h
    by_cases h1 : s.isDialogueOpen = true
    · rw [if_pos h1] at h
      cases h
      exact hs
    · rw [if_neg h1] at h
      have h1' : s.isDialogueOpen = false := by simpa using h1
      by_cases h2 : anyPopupOpen s = true
      · rw [if_pos h2] at h
        cases h
        exact hs
      · rw [if_neg h2] at h
        obtain ⟨hfr, hhb, hlp, hgd, hct, hfh, hmo⟩ := anyPopupOpen_false h2
        have hov : s.overlayVisible = false := by rw [hs.1, h1']
        cases hit with
        | none =>
          cases h
          exact hs
        | some tag =>
          obtain ⟨ty, tid⟩ := tag
          cases ty with
          | cabin =>
            dsimp only [] at h
            have ho := startVisit_opens h
            refine ⟨by rw [ho.1, ho.2.1], ?_⟩
            unfold openCount
            rw [ho.1, ho.2.2.1, ho.2.2.2.1, ho.2.2.2.2.1, ho.2.2.2.2.2.1,
              ho.2.2.2.2.2.2.1, ho.2.2.2.2.2.2.2.1, ho.2.2.2.2.2.2.2.2,
              hfr, hhb, hlp, hgd, hct, hfh, hmo]
            simp
          | fireplace =>
            dsimp only [] at h
            unfold openFireplacePopup at h
            split at h
            · cases h
              refine ⟨hs.1, ?_⟩
              unfold openCount
              simp [hov, hhb, hlp, hgd, hct, hfh, hmo]
            · exact Except.noConfusion h
          | herb =>
            dsimp only [] at h
            unfold openHerbPopup at h
            split at h
            · cases h
              refine ⟨hs.1, ?_⟩
              unfold openCount
              simp [hov, hfr, hlp, hgd, hct, hfh, hmo]
            · exact Except.noConfusion h
          | logpile =>
            dsimp only [] at h
            unfold openLogPilePopup at h
            split at h
            · cases h
              refine ⟨hs.1, ?_⟩
              unfold openCount
              simp [hov, hfr, hhb, hgd, hct, hfh, hmo]
            · exact Except.noConfusion h
          | garden =>
            dsimp only [] at h
            unfold openGardenPopup at h
            split at h
            · cases h
              refine ⟨hs.1, ?_⟩
              unfold openCount
              simp [hov, hfr, hhb, hlp, hct, hfh, hmo]
            · exact Except.noConfusion h
          | cart =>
            dsimp only [] at h
            unfold openCartPopup at h
            split at h
            · cases h
              refine ⟨hs.1, ?_⟩
              unfold openCount
              simp [hov, hfr, hhb, hlp, hgd, hfh, hmo]
            · exact Except.noConfusion h
          | fishing =>
            dsimp only [] at h
            unfold openFishingPopup at h
            split at h
            · cases h
              refine ⟨hs.1, ?_⟩
              unfold openCount
              simp [hov, hfr, hhb, hlp, hgd, hct, hmo]
            · exact Except.noConfusion h
          | memorial =>
            dsimp only [] at h
            unfold openMemorialPopup at h
            split at h
            · cases h
              refine ⟨hs.1, ?_⟩
              unfold openCount
              simp [hov, hfr, hhb, hlp, hgd, hct, hfh]
            · exact Except.noConfusion h
  | clickContinue =>
    simp only [stepEvent] at h
    split at h
    · unfold continueClick at h
      cases ha : advanceDialogue s with
      | error e =>
        simp only [ha] at h
        exact Except.noConfusion h
      | ok s₁ =>
        simp only [ha] at h
        have hs₁ : OverlayInv s₁ := (advanceDialogue_flags ha).overlayInv hs
        cases hc : s₁.continueAction with
        | none =>
          simp only [hc] at h
          cases h
          exact hs₁
        | some act =>
          simp only [hc] at h
          cases act with
          | advanceAct => exact (advanceDialogue_flags h).overlayInv hs₁
          | closeAct =>
            cases h
            exact overlayInv_mono s₁ rfl (Or.inr rfl) (Or.inl rfl) (Or.inl rfl)
              (Or.inl rfl) (Or.inl rfl) (Or.inl rfl) (Or.inl rfl) (Or.inl rfl) hs₁
          | completeAct =>
            obtain ⟨c1, c2, c3, c4, c5, c6, c7, c8, c9, _⟩ := completeVisit_closes h
            exact overlayInv_mono s₁ (by rw [c1, c2]) (Or.inr c1) (Or.inl c3) (Or.inl c4)
              (Or.inl c5) (Or.inl c6) (Or.inl c7) (Or.inl c8) (Or.inl c9) hs₁
    · cases h
      exact hs
  | clickDialogueClose =>
    simp only [stepEvent] at h
    split at h
    · cases h
      exact overlayInv_mono s rfl (Or.inr rfl) (Or.inl rfl) (Or.inl rfl)
        (Or.inl rfl) (Or.inl rfl) (Or.inl rfl) (Or.inl rfl) (Or.inl rfl) hs
    · cases h
      exact hs
  | selectOption nodeId =>
    simp only [stepEvent] at h
    split at h
    · split at h
      · cases h
        exact (handleAnswer_flags _ _ _).overlayInv hs
      · cases h
        exact hs
    · cases h
      exact hs
  | timerFires => exact (fireTimer_flags h).overlayInv hs
  | clickFireClose =>
    simp only [stepEvent] at h
    split at h <;> cases h
    · exact overlayInv_mono s hs.1 (Or.inl rfl) (Or.inr rfl) (Or.inl rfl)
        (Or.inl rfl) (Or.inl rfl) (Or.inl rfl) (Or.inl rfl) (Or.inl rfl) hs
    · exact hs
  | clickHerbClose =>
    simp only [stepEvent] at h
    split at h <;> cases h
    · exact overlayInv_mono s hs.1 (Or.inl rfl) (Or.inl rfl) (Or.inr rfl)
        (Or.inl rfl) (Or.inl rfl) (Or.inl rfl) (Or.inl rfl) (Or.inl rfl) hs
    · exact hs
  | clickLogPileClose =>
    simp only [stepEvent] at h
    split at h <;> cases h
    · exact overlayInv_mono s hs.1 (Or.inl rfl) (Or.inl rfl) (Or.inl rfl)
        (Or.inr rfl) (Or.inl rfl) (Or.inl rfl) (Or.inl rfl) (Or.inl rfl) hs
    · exact hs
  | clickGardenClose =>
    simp only [stepEvent] at h
    split at h <;> cases h
    · exact overlayInv_mono s hs.1 (Or.inl rfl) (Or.inl rfl) (Or.inl rfl)
        (Or.inl rfl) (Or.inr rfl) (Or.inl rfl) (Or.inl rfl) (Or.inl rfl) hs
    · exact hs
  | clickCartClose =>
    simp only [stepEvent] at h
    split at h <;> cases h
    · exact overlayInv_mono s hs.1 (Or.inl rfl) (Or.inl rfl) (Or.inl rfl)
        (Or.inl rfl) (Or.inl rfl) (Or.inr rfl) (Or.inl rfl) (Or.inl rfl) hs
    · exact hs
  | clickFishingClose =>
    simp only [stepEvent] at h
    split at h <;> cases h
    · exact overlayInv_mono s hs.1 (Or.inl rfl) (Or.inl rfl) (Or.inl rfl)
        (Or.inl rfl) (Or.inl rfl) (Or.inl rfl) (Or.inr rfl) (Or.inl rfl) hs
    · exact hs
  | clickMemorialClose =>
    simp only [stepEvent] at h
    split at h <;> cases h
    · exact overlayInv_mono s hs.1 (Or.inl rfl) (Or.inl rfl) (Or.inl rfl)
        (Or.inl rfl) (Or.inl rfl) (Or.inl rfl) (Or.inl rfl) (Or.inr rfl) hs
    · exact hs
  | pressEscape =>
    cases h
    exact overlayInv_mono s rfl (Or.inr rfl) (Or.inr rfl) (Or.inr rfl)
      (Or.inr rfl) (Or.inr rfl) (Or.inr rfl) (Or.inr rfl) (Or.inr rfl) hs


theorem runEvents_overlayInv (visits : List ElderVisit) (evs : List Event)
    {s s' : ManagerState} (h : runEvents visits evs s = .ok s') (hs : OverlayInv s) :
    OverlayInv s' := by
  induction evs generalizing s with
  | nil =>
    simp [runEvents] at h
    cases h
    exact hs
  | cons e es ih =>
    simp only [runEvents, List.foldlM_cons] at h
    cases hstep : stepEvent visits e s with
    | error err =>
      rw [hstep] at h
      simp [bind, Except.bind] at h
    | ok s₁ =>
      rw [hstep] at h
      simp only [bind, Except.bind] at h
      exact ih (s := s₁) h (stepEvent_overlayInv visits e hstep hs)


/-! ### Claim C4 -/

/-- **C4**: picking is gated on all open overlays.  While the dialogue
session is open or any of the seven experience overlays is displayed, a
canvas click is a no-op — the handler returns before the raycast dispatch
and the state is unchanged — and consequently, along every event run from a
freshly constructed manager, at most one of the eight overlay types is
displayed at any time. -/
theorem c4_picking_gate_mutual_exclusion (visits : List ElderVisit) :
    (∀ (s : ManagerState) (hit : Option HitTag),
       s.isDialogueOpen = true ∨ anyPopupOpen s = true →
       stepEvent visits (.canvasClick hit) s = .ok s)
    ∧ (∀ (store0 : Option String) (evs : List Event) (s' : ManagerState),
       runEvents visits evs (initState store0) = .ok s' → openCount s' ≤ 1) := by
  constructor
  · intro s hit hgate
    simp only [stepEvent]
    unfold onCanvasClick
    by_cases h1 : s.isDialogueOpen = true
    · rw [if_pos h1]
    · rcases hgate with hg | hg
      · exact absurd hg h1
      · rw [if_neg h1, if_pos hg]
  · intro store0 evs s' h
    refine (runEvents_overlayInv visits evs h ⟨rfl, ?_⟩).2
    simp [openCount, initState]


/-- Witness for C4: a state with the dialogue open ignores a cabin hit, and
the empty run keeps the count at zero. -/
theorem c4_picking_gate_mutual_exclusion_witness :
    (stepEvent [] (.canvasClick (some ⟨.cabin, 0⟩))
        { initState none with isDialogueOpen := true, overlayVisible := true }
      = .ok { initState none with isDialogueOpen := true, overlayVisible := true })
    ∧ openCount (initState none) ≤ 1 :=
  ⟨(c4_picking_gate_mutual_exclusion []).1 _ _ (Or.inl rfl),
   (c4_picking_gate_mutual_exclusion []).2 none [] (initState none) rfl⟩


/-- **C1**: the deferred `showSuccess` callback is *not* cancelled by
`closeDialogue` and does *not* safely no-op: when the overlay is closed
between the correct answer and the timer firing, the callback dereferences
the torn-down `currentVisit` (now `null`) and the run raises a `TypeError`. -/
theorem c1_success_timer_fires_after_close :
    runEvents elderVisitsOne c1Events (initState none)
      = .error (.typeError "Cannot read properties of null (reading math)") := by rfl


/-! ### Field-preservation lemmas for the dialogue operations -/

theorem displayCurrentStep_keeps {s s' : ManagerState}
    (h : displayCurrentStep s = .ok s') :
    s'.currentVisit = s.currentVisit ∧ s'.continueAction = s.continueAction ∧
    s'.progress = s.progress ∧ s'.completedVisits = s.completedVisits ∧
    s'.controlsEnabled = s.controlsEnabled ∧
    s'.currentCabinNumber = s.currentCabinNumber ∧
    s'.dialogueStep = s.dialogueStep ∧ s'.mathVisible = s.mathVisible ∧
    s'.optionButtons = s.optionButtons ∧ s'.nextNodeId = s.nextNodeId ∧
    s'.pendingTimers = s.pendingTimers ∧ s'.continueVisible = s.continueVisible := by
  unfold displayCurrentStep at h
  cases hv : s.currentVisit with
  | none =>
    simp only [hv] at h
    exact Except.noConfusion h
  | some v =>
    simp only [hv] at h
    split at h <;> (cases h; exact ⟨hv.symm ▸ rfl, rfl, rfl, rfl, rfl, rfl, rfl, rfl, rfl, rfl, rfl, rfl⟩)


theorem showMathQuestion_keeps {s s' : ManagerState}
    (h : showMathQuestion s = .ok s') :
    s'.currentVisit = s.currentVisit ∧ s'.continueAction = s.continueAction ∧
    s'.progress = s.progress ∧ s'.completedVisits = s.completedVisits ∧
    s'.controlsEnabled = s.controlsEnabled ∧
    s'.currentCabinNumber = s.currentCabinNumber ∧
    s'.dialogueStep = s.dialogueStep ∧ s'.pendingTimers = s.pendingTimers := by
  unfold showMathQuestion at h
  cases hv : s.currentVisit with
  | none =>
    simp only [hv] at h
    exact Except.noConfusion h
  | some v =>
    simp only [hv] at h
    cases h
    exact ⟨rfl, rfl, rfl, rfl, rfl, rfl, rfl, rfl⟩


theorem advanceDialogue_keeps {s s' : ManagerState}
    (h : advanceDialogue s = .ok s') :
    s'.currentVisit = s.currentVisit ∧ s'.continueAction = s.continueAction ∧
    s'.progress = s.progress ∧ s'.completedVisits = s.completedVisits ∧
    s'.controlsEnabled = s.controlsEnabled ∧
    s'.currentCabinNumber = s.currentCabinNumber := by
  unfold advanceDialogue at h
  cases hv : s.currentVisit with
  | none =>
    simp only [hv] at h
    exact Except.noConfusion h
  | some v =>
    simp only [hv] at h
    split at h
    · obtain ⟨k1, k2, k3, k4, k5, k6, _⟩ := displayCurrentStep_keeps h
      exact ⟨k1.trans rfl, k2, k3, k4, k5, k6⟩
    · split at h
      · obtain ⟨k1, k2, k3, k4, k5, k6, _⟩ := showMathQuestion_keeps h
        exact ⟨k1.trans rfl, k2, k3, k4, k5, k6⟩
      · cases h
        exact ⟨rfl, rfl, rfl, rfl, rfl, rfl⟩


theorem showSuccess_keeps {s s' : ManagerState}
    (h : showSuccess s = .ok s') :
    s'.currentVisit = s.currentVisit ∧ s'.progress = s.progress ∧
    s'.completedVisits = s.completedVisits ∧ s'.controlsEnabled = s.controlsEnabled ∧
    s'.currentCabinNumber = s.currentCabinNumber ∧
    s'.continueAction = some .completeAct := by
  unfold showSuccess at h
  cases hv : s.currentVisit with
  | none =>
    simp only [hv] at h
    exact Except.noConfusion h
  | some v =>
    simp only [hv] at h
    cases h
    exact ⟨rfl, rfl, rfl, rfl, rfl, rfl⟩


theorem completeVisit_completed {s s' : ManagerState}
    (h : completeVisit s = .ok s') :
    ∃ v, s.currentVisit = some v
      ∧ s'.completedVisits = insertOnce v.id s.completedVisits := by
  unfold completeVisit at h
  cases hv : s.currentVisit with
  | none =>
    simp only [hv] at h
    exact Except.noConfusion h
  | some v =>
    simp only [hv] at h
    split at h
    · exact Except.noConfusion h
    · cases h
      exact ⟨v, rfl, rfl⟩


/-- Fresh `startVisit` on a not-yet-completed visit with a nonempty greeting
shows greeting step 0 and wires the continue button to `advanceDialogue`. -/
theorem startVisit_greeting {visits : List ElderVisit} {vid : Nat} {v : ElderVisit}
    {s : ManagerState} (hv : visits[vid]? = some v) (hmem : vid ∉ s.completedVisits)
    (hg : 0 < v.greeting.length) :
    startVisit visits vid s
      = .ok { startVisitBase v vid s with
              storyText := v.greeting.getD 0 "", continueText := "Continue →",
              continueAction := some .advanceAct, overlayVisible := true } := by
  unfold startVisit
  simp only [hv]
  rw [if_neg hmem]
  unfold displayCurrentStep startVisitBase
  dsimp only
  rw [if_pos hg]


/-- Running the greeting loop for exactly the number of remaining lines
lands in the math-challenge presentation, leaving the session bookkeeping
untouched. -/
theorem advanceN_to_math (v : ElderVisit) :
    ∀ (n : Nat) (s : ManagerState), s.currentVisit = some v → 0 < n →
    s.dialogueStep + n = v.greeting.length →
    ∃ s', advanceN n s = .ok s'
      ∧ s'.currentVisit = some v
      ∧ s'.mathVisible = true
      ∧ s'.optionButtons = buildButtons s.nextNodeId v.math.options
      ∧ s'.pendingTimers = s.pendingTimers
      ∧ s'.completedVisits = s.completedVisits
      ∧ s'.progress = s.progress
      ∧ s'.isDialogueOpen = s.isDialogueOpen
      ∧ s'.overlayVisible = s.overlayVisible
      ∧ s'.currentCabinNumber = s.currentCabinNumber
      ∧ s'.continueVisible = false
      ∧ s'.controlsEnabled = s.controlsEnabled
      ∧ s'.continueAction = s.continueAction := by
  intro n
  induction n with
  | zero => intro s _ h0 _; omega
  | succ m ih =>
    intro s hcv hpos hsum
    by_cases hm : m = 0
    · subst hm
      have hstep : advanceDialogue s
          = .ok { s with
              dialogueStep := s.dialogueStep + 1,
              storyText := "",
              mathVisible := true,
              mathLabel := v.math.label,
              mathQuestion := v.math.question,
              continueVisible := false,
              optionButtons := buildButtons s.nextNodeId v.math.options,
              nextNodeId := s.nextNodeId + v.math.options.length } := by
        unfold advanceDialogue
        simp only [hcv]
        rw [if_neg (by omega), if_pos (by omega)]
        unfold showMathQuestion
        simp only [hcv]
      refine ⟨{ s with
          dialogueStep := s.dialogueStep + 1,
          storyText := "",
          mathVisible := true,
          mathLabel := v.math.label,
          mathQuestion := v.math.question,
          continueVisible := false,
          optionButtons := buildButtons s.nextNodeId v.math.options,
          nextNodeId := s.nextNodeId + v.math.options.length },
        ?_, hcv, rfl, rfl, rfl, rfl, rfl, rfl, rfl, rfl, rfl, rfl, rfl⟩
      simp [advanceN, hstep]
    · have hlt : s.dialogueStep + 1 < v.greeting.length := by omega
      have hstep : advanceDialogue s
          = .ok { s with
              dialogueStep := s.dialogueStep + 1,
              storyText := v.greeting.getD (s.dialogueStep + 1) "",
              continueText := "Continue →" } := by
        unfold advanceDialogue
        simp only [hcv]
        rw [if_pos hlt]
        unfold displayCurrentStep
        simp only [hcv]
        rw [if_pos hlt]
      obtain ⟨s', hrun, hc⟩ := ih { s with
          dialogueStep := s.dialogueStep + 1,
          storyText := v.greeting.getD (s.dialogueStep + 1) "",
          continueText := "Continue →" } hcv (by omega) (by dsimp only; omega)
      refine ⟨s', ?_, hc⟩
      unfold advanceN
      simp only [hstep]
      exact hrun


/-- **C6**: for every `ElderVisit` with a nonempty greeting sequence and a
math challenge containing a correct option, the complete Cabin flow on a
fresh manager ends with the 1-based key `cabin-(localId+1)` in the durable
VisitedSet and the dialogue session back in Closed: overlay hidden,
`currentVisit` null, controls re-enabled. -/
theorem c6_full_cabin_flow (visits : List ElderVisit) (vid : Nat) (v : ElderVisit)
    (hv : visits[vid]? = some v) (hg : 0 < v.greeting.length)
    (i : Nat) (o : MathOption) (_ho : v.math.options[i]? = some o) (hoc : o.correct = true) :
    ∃ sf, cabinFlow visits vid v.greeting.length i o.correct (initState none) = .ok sf
      ∧ visitKey "cabin" (toString (vid + 1)) ∈ storedVisited sf.progress
      ∧ sf.isDialogueOpen = false ∧ sf.overlayVisible = false
      ∧ sf.currentVisit = none ∧ sf.controlsEnabled = true := by
  have h₁ := startVisit_greeting hv (s := initState none) (by simp [initState]) hg
  obtain ⟨s₂, h₂, hcv₂, hmv₂, hob₂, hpt₂, hcm₂, hpr₂, hdo₂, hov₂, hcc₂, hcvis₂, hce₂, hca₂⟩ :=
    advanceN_to_math v v.greeting.length
      { startVisitBase v vid (initState none) with
        storyText := v.greeting.getD 0 "", continueText := "Continue →",
        continueAction := some .advanceAct, overlayVisible := true }
      rfl hg (by simp [startVisitBase, initState])
  have hpt₂' : s₂.pendingTimers = [] := by rw [hpt₂]; rfl
  have hcm₂' : s₂.completedVisits = [] := by rw [hcm₂]; rfl
  have hpr₂' : s₂.progress = initProgress none := by rw [hpr₂]; rfl
  have hcc₂' : s₂.currentCabinNumber = some (vid + 1) := by rw [hcc₂]; rfl
  have h₃ : handleAnswer i o.correct s₂
      = { s₂ with
          optionButtons := s₂.optionButtons.map
            (fun b => if b.nodeId = i then { b with correctClass := true } else b),
          pendingTimers := s₂.pendingTimers ++ [.showSuccessCb] } := by
    rw [hoc]
    unfold handleAnswer
    rw [if_pos rfl]
  obtain ⟨s₄, h₄, hcv₄, hcc₄, hcm₄, hpr₄⟩ :
      ∃ s₄, fireTimer (handleAnswer i o.correct s₂) = .ok s₄
        ∧ s₄.currentVisit = some v
        ∧ s₄.currentCabinNumber = some (vid + 1)
        ∧ s₄.completedVisits = []
        ∧ s₄.progress = initProgress none := by
    rw [h₃]
    unfold fireTimer
    simp only [hpt₂', List.nil_append]
    unfold showSuccess
    simp only [hcv₂]
    exact ⟨_, rfl, rfl, hcc₂', hcm₂', hpr₂'⟩
  have hmark : markStationVisited "cabin" (toString (vid + 1)) (initProgress none)
      = .ok { { initProgress none with
            storage := some (jsonStringify ([] ++ [visitKey "cabin" (toString (vid + 1))])) }
          with progressCount := ([] ++ [visitKey "cabin" (toString (vid + 1))]).length } := by
    rw [markStationVisited_split "cabin" (toString (vid + 1)) (initProgress none) [] rfl,
      if_neg (by simp),
      updateProgressUI_stringify _ ([] ++ [visitKey "cabin" (toString (vid + 1))])
        (by simpa using getVisited_stringify ([] ++ [visitKey "cabin" (toString (vid + 1))])),
      if_neg (by simp [TOTAL_STATIONS])]
  have h₅ : ∃ sf, completeVisit s₄ = .ok sf
      ∧ visitKey "cabin" (toString (vid + 1)) ∈ storedVisited sf.progress
      ∧ sf.isDialogueOpen = false ∧ sf.overlayVisible = false
      ∧ sf.currentVisit = none ∧ sf.controlsEnabled = true := by
    unfold completeVisit
    simp only [hcv₄, hcc₄, hpr₄, hmark]
    refine ⟨_, rfl, ?_, rfl, rfl, rfl, rfl⟩
    simp [closeDialogue, storedVisited, getVisited_stringify]
  obtain ⟨sf, h₅run, h₅c⟩ := h₅
  refine ⟨sf, ?_, h₅c⟩
  unfold cabinFlow
  simp only [bind, Except.bind, h₁, h₂, h₄, h₅run]


/-- Witness for C6 at the one-cabin table. -/
theorem c6_full_cabin_flow_witness :
    elderVisitsOne[0]? = some elderOne
    ∧ 0 < elderOne.greeting.length
    ∧ elderOne.math.options[0]? = some ⟨"2", true⟩
    ∧ (⟨"2", true⟩ : MathOption).correct = true
    ∧ ∃ sf, cabinFlow elderVisitsOne 0 elderOne.greeting.length 0
          (⟨"2", true⟩ : MathOption).correct (initState none) = .ok sf
        ∧ visitKey "cabin" (toString (0 + 1)) ∈ storedVisited sf.progress
        ∧ sf.isDialogueOpen = false ∧ sf.overlayVisible = false
        ∧ sf.currentVisit = none ∧ sf.controlsEnabled = true :=
  ⟨rfl, by decide, rfl, rfl,
   c6_full_cabin_flow elderVisitsOne 0 elderOne rfl (by decide) 0 ⟨"2", true⟩ rfl rfl⟩


/-! ### Claim C7 -/

/-- `advanceDialogue` cannot fail while a visit is active. -/
theorem advanceDialogue_ok {s : ManagerState} {v : ElderVisit}
    (hcv : s.currentVisit = some v) :
    ∃ s₁, advanceDialogue s = .ok s₁ := by
  unfold advanceDialogue
  simp only [hcv]
  split
  · unfold displayCurrentStep
    simp only [hcv]
    split
    · exact ⟨_, rfl⟩
    · exact ⟨_, rfl⟩
  · split
    · unfold showMathQuestion
      simp only [hcv]
      exact ⟨_, rfl⟩
    · exact ⟨_, rfl⟩


/-- **C7**: for every `localId` already in the session's completed set,
`startVisit` immediately shows the static welcome-back branch — the story
text is the fixed welcome-back line, the math section stays hidden, and the
single action (`Leave →`) is wired to `closeDialogue` — and clicking that
single action returns the session to Closed.  Greeting step 0 is not
displayed. -/
theorem c7_already_completed_shortcut (visits : List ElderVisit) (vid : Nat)
    (v : ElderVisit) (s : ManagerState)
    (hv : visits[vid]? = some v) (hmem : vid ∈ s.completedVisits) :
    ∃ s', startVisit visits vid s = .ok s'
      ∧ s'.storyText = welcomeBackText
      ∧ s'.mathVisible = false
      ∧ s'.continueText = "Leave →"
      ∧ s'.continueAction = some .closeAct
      ∧ ∃ s'', continueClick s' = .ok s''
          ∧ s''.isDialogueOpen = false ∧ s''.overlayVisible = false
          ∧ s''.currentVisit = none ∧ s''.controlsEnabled = true := by
  have h₁ : startVisit visits vid s
      = .ok { startVisitBase v vid s with
          storyText := welcomeBackText, continueText := "Leave →",
          continueAction := some .closeAct, overlayVisible := true } := by
    unfold startVisit
    simp only [hv]
    rw [if_pos hmem]
  refine ⟨_, h₁, rfl, rfl, rfl, rfl, ?_⟩
  obtain ⟨s₁, ha⟩ := advanceDialogue_ok
    (s := { startVisitBase v vid s with
        storyText := welcomeBackText, continueText := "Leave →",
        continueAction := some .closeAct, overlayVisible := true }) (v := v) rfl
  have hact : s₁.continueAction = some .closeAct := by
    rw [(advanceDialogue_keeps ha).2.1]
  unfold continueClick
  simp only [ha, hact]
  exact ⟨_, rfl, rfl, rfl, rfl, rfl⟩


/-- Witness for C7: one cabin, already completed in this session. -/
theorem c7_already_completed_shortcut_witness :
    elderVisitsOne[0]? = some elderOne
    ∧ (0 : Nat) ∈ ({ initState none with completedVisits := [0] } : ManagerState).completedVisits
    ∧ ∃ s', startVisit elderVisitsOne 0 { initState none with completedVisits := [0] } = .ok s'
        ∧ s'.storyText = welcomeBackText
        ∧ s'.mathVisible = false
        ∧ s'.continueText = "Leave →"
        ∧ s'.continueAction = some .closeAct
        ∧ ∃ s'', continueClick s' = .ok s''
            ∧ s''.isDialogueOpen = false ∧ s''.overlayVisible = false
            ∧ s''.currentVisit = none ∧ s''.controlsEnabled = true :=
  ⟨rfl, by decide,
   c7_already_completed_shortcut elderVisitsOne 0 elderOne _ rfl (by decide)⟩


/-! ### Claim C8 -/

/-- Marking a control wrong and then clearing the wrong mark restores the
option list, provided no control wired to that node already carries the
mark. -/
theorem mark_clear_roundtrip (i : Nat) (l : List OptionBtn)
    (h : ∀ x ∈ l, x.nodeId = i → x.wrongClass = false) :
    (l.map (fun x => if x.nodeId = i then { x with wrongClass := true } else x)).map
      (fun x => if x.nodeId = i then { x with wrongClass := false } else x) = l := by
  induction l with
  | nil => rfl
  | cons a l ih =>
    simp only [List.map_cons]
    by_cases ha : a.nodeId = i
    · rw [if_pos ha,
        if_pos (show ({ a with wrongClass := true } : OptionBtn).nodeId = i from ha)]
      have hwa : a.wrongClass = false := h a (List.mem_cons_self a l) ha
      have hback : ({ { a with wrongClass := true } with wrongClass := false } : OptionBtn) = a := by
        cases a
        simp_all
      rw [hback, ih fun x hx hxi => h x (List.mem_cons_of_mem _ hx) hxi]
    · rw [if_neg ha, if_neg ha, ih fun x hx hxi => h x (List.mem_cons_of_mem _ hx) hxi]


/-- **C8**: selecting an incorrect option is free and retryable.  The state
stays in the math challenge (the math section remains displayed), no
progress is recorded, and when the 500ms timer clears the `wrong` mark the
manager state is exactly as before the selection — every option remains
selectable and a retry is indistinguishable from the first attempt. -/
theorem c8_wrong_answer_free_retry (visits : List ElderVisit) (s : ManagerState)
    (i : Nat) (b : OptionBtn)
    (hfind : s.optionButtons.find? (fun x => x.nodeId == i) = some b)
    (hb : b.correct = false)
    (hwb : ∀ x ∈ s.optionButtons, x.nodeId = i → x.wrongClass = false)
    (hov : s.overlayVisible = true) (hmv : s.mathVisible = true)
    (htm : s.pendingTimers = []) :
    ∃ s₁, stepEvent visits (.selectOption i) s = .ok s₁
      ∧ s₁.mathVisible = true
      ∧ s₁.progress = s.progress
      ∧ stepEvent visits .timerFires s₁ = .ok s := by
  have hgate : (s.overlayVisible && s.mathVisible) = true := by rw [hov, hmv]; rfl
  have hstep : stepEvent visits (.selectOption i) s = .ok (handleAnswer i b.correct s) := by
    simp only [stepEvent]
    rw [if_pos hgate]
    simp only [hfind]
  rw [hb] at hstep
  have hha : handleAnswer i false s
      = { s with
          optionButtons := s.optionButtons.map
            (fun x => if x.nodeId = i then { x with wrongClass := true } else x),
          pendingTimers := s.pendingTimers ++ [.clearWrongCb i] } := by
    unfold handleAnswer
    rw [if_neg (by simp)]
  rw [hha] at hstep
  refine ⟨_, hstep, hmv, rfl, ?_⟩
  simp only [stepEvent]
  unfold fireTimer
  simp only [htm, List.nil_append]
  rw [mark_clear_roundtrip i s.optionButtons hwb, ← htm]


/-- Witness for C8 at a concrete math-challenge state. -/
theorem c8_wrong_answer_free_retry_witness :
    (({ initState none with
        overlayVisible := true, isDialogueOpen := true, mathVisible := true,
        optionButtons := [⟨0, "2", true, false, false⟩, ⟨1, "3", false, false, false⟩]
      } : ManagerState).optionButtons.find? (fun x => x.nodeId == 1)
        = some ⟨1, "3", false, false, false⟩)
    ∧ (⟨1, "3", false, false, false⟩ : OptionBtn).correct = false
    ∧ ∃ s₁, stepEvent [] (.selectOption 1)
          { initState none with
            overlayVisible := true, isDialogueOpen := true, mathVisible := true,
            optionButtons := [⟨0, "2", true, false, false⟩, ⟨1, "3", false, false, false⟩] }
        = .ok s₁
      ∧ s₁.mathVisible = true
      ∧ s₁.progress = ({ initState none with
            overlayVisible := true, isDialogueOpen := true, mathVisible := true,
            optionButtons := [⟨0, "2", true, false, false⟩, ⟨1, "3", false, false, false⟩]
          } : ManagerState).progress
      ∧ stepEvent [] .timerFires s₁
          = .ok { initState none with
              overlayVisible := true, isDialogueOpen := true, mathVisible := true,
              optionButtons := [⟨0, "2", true, false, false⟩, ⟨1, "3", false, false, false⟩] } :=
  ⟨rfl, rfl,
   c8_wrong_answer_free_retry [] _ 1 ⟨1, "3", false, false, false⟩ rfl rfl
     (by decide) rfl rfl rfl⟩


/-- **C9, counterexample**: `startVisit` followed immediately by
`closeDialogue` leaves `controls.enabled` true but does *not* leave all
other state unchanged — `currentCabinNumber` retains `some 1` where the
fresh manager had `none` (and the populated speaker/story fields likewise
persist), refuting the "leaves all other state unchanged" part. -/
theorem c9_cex_residual_state_after_open_close :
    (runEvents elderVisitsOne c9Events (initState none)).map
        (fun s => (s.currentCabinNumber, s.controlsEnabled))
      = .ok (some 1, true)
    ∧ (initState none).currentCabinNumber = none :=
  ⟨rfl, rfl⟩


/-- `startVisit` succeeds on any in-range id and touches neither the
progress store nor the session's completed set. -/
theorem startVisit_keeps {visits : List ElderVisit} {vid : Nat} {v : ElderVisit}
    {s : ManagerState} (hv : visits[vid]? = some v) :
    ∃ s₁, startVisit visits vid s = .ok s₁
      ∧ s₁.progress = s.progress ∧ s₁.completedVisits = s.completedVisits := by
  unfold startVisit
  simp only [hv]
  split
  · exact ⟨_, rfl, rfl, rfl⟩
  · obtain ⟨sd, hdd, hk⟩ : ∃ sd, displayCurrentStep (startVisitBase v vid s) = .ok sd
        ∧ sd.progress = s.progress ∧ sd.completedVisits = s.completedVisits := by
      unfold displayCurrentStep startVisitBase
      dsimp only
      split
      · exact ⟨_, rfl, rfl, rfl⟩
      · exact ⟨_, rfl, rfl, rfl⟩
    simp only [hdd]
    exact ⟨_, rfl, hk.1, hk.2⟩


/-- Two successful event dispatches in sequence. -/
theorem runEvents_pair {visits : List ElderVisit} {e₁ e₂ : Event} {s s₁ s₂ : ManagerState}
    (h₁ : stepEvent visits e₁ s = .ok s₁) (h₂ : stepEvent visits e₂ s₁ = .ok s₂) :
    runEvents visits [e₁, e₂] s = .ok s₂ := by
  simp only [runEvents, List.foldlM_cons, List.foldlM_nil, h₁, bind, Except.bind, h₂,
    pure, Except.pure]


/-- **C9 (amended)**: for every category and valid id, `open` followed
immediately by `close` leaves `controls.enabled == true`, records no
progress key (the progress store and the session completed set are
unchanged), and closes every overlay; and every close path of every
overlay — including Escape — either re-enables the camera controls or was
a no-op on an already-closed overlay.  Residual presentation fields
(`currentCabinNumber`, populated text) may retain values from the opened
visit. -/
theorem c9_amended_open_close_progress_neutral (visits : List ElderVisit)
    (t : HitTag) (s : ManagerState)
    (hd : s.isDialogueOpen = false) (hov : s.overlayVisible = false)
    (hp : anyPopupOpen s = false) (hvalid : validTag visits t) :
    (∃ s', runEvents visits [.canvasClick (some t), closeEventFor t.type] s = .ok s'
       ∧ s'.controlsEnabled = true
       ∧ s'.progress = s.progress
       ∧ s'.completedVisits = s.completedVisits
       ∧ openCount s' = 0)
    ∧ (∀ (u u' : ManagerState) (e : Event), e ∈ closeEventList →
        stepEvent visits e u = .ok u' → u'.controlsEnabled = true ∨ u' = u) := by
  obtain ⟨hfr, hhb, hlp, hgd, hct, hfh, hmo⟩ := anyPopupOpen_false (s := s) (by simp [hp])
  constructor
  · obtain ⟨ty, tid⟩ := t
    cases ty
    case cabin =>
      obtain ⟨v, hv⟩ := hvalid
      obtain ⟨s₁, h₁, hp₁, hc₁⟩ := startVisit_keeps (s := s) hv
      have ho := startVisit_opens h₁
      have hstep1 : stepEvent visits (.canvasClick (some ⟨.cabin, tid⟩)) s = .ok s₁ := by
        simp only [stepEvent]
        unfold onCanvasClick
        rw [if_neg (by simp [hd]), if_neg (by simp [hp])]
        exact h₁
      have hstep2 : stepEvent visits (closeEventFor .cabin) s₁ = .ok (closeDialogue s₁) := by
        simp only [closeEventFor, stepEvent]
        rw [if_pos ho.1]
      refine ⟨closeDialogue s₁, runEvents_pair hstep1 hstep2, rfl, hp₁, hc₁, ?_⟩
      unfold openCount closeDialogue
      simp only [ho.2.2.1, ho.2.2.2.1, ho.2.2.2.2.1, ho.2.2.2.2.2.1,
        ho.2.2.2.2.2.2.1, ho.2.2.2.2.2.2.2.1, ho.2.2.2.2.2.2.2.2]
      simp [hfr, hhb, hlp, hgd, hct, hfh, hmo]
    case fireplace =>
      have hvd : tid < numFireplaceExperiences := hvalid
      have hstep1 : stepEvent visits (.canvasClick (some ⟨.fireplace, tid⟩)) s
          = .ok { s with controlsEnabled := false, fireBound := some tid, fireOpen := true } := by
        simp only [stepEvent]
        unfold onCanvasClick
        rw [if_neg (by simp [hd]), if_neg (by simp [hp])]
        dsimp only
        unfold openFireplacePopup
        rw [if_pos hvd]
      have hstep2 : stepEvent visits (closeEventFor .fireplace)
            { s with controlsEnabled := false, fireBound := some tid, fireOpen := true }
          = .ok (closeFireplacePopup { s with controlsEnabled := false, fireBound := some tid, fireOpen := true }) := by
        simp only [closeEventFor, stepEvent]
        simp
      refine ⟨_, runEvents_pair hstep1 hstep2, rfl, rfl, rfl, ?_⟩
      unfold openCount closeFireplacePopup
      simp [hov, hhb, hlp, hgd, hct, hfh, hmo]
    case herb =>
      have hvd : tid < numHerbExperiences := hvalid
      have hstep1 : stepEvent visits (.canvasClick (some ⟨.herb, tid⟩)) s
          = .ok { s with controlsEnabled := false, herbBound := some tid, herbOpen := true } := by
        simp only [stepEvent]
        unfold onCanvasClick
        rw [if_neg (by simp [hd]), if_neg (by simp [hp])]
        dsimp only
        unfold openHerbPopup
        rw [if_pos hvd]
      have hstep2 : stepEvent visits (closeEventFor .herb)
            { s with controlsEnabled := false, herbBound := some tid, herbOpen := true }
          = .ok (closeHerbPopup { s with controlsEnabled := false, herbBound := some tid, herbOpen := true }) := by
        simp only [closeEventFor, stepEvent]
        simp
      refine ⟨_, runEvents_pair hstep1 hstep2, rfl, rfl, rfl, ?_⟩
      unfold openCount closeHerbPopup
      simp [hov, hfr, hlp, hgd, hct, hfh, hmo]
    case logpile =>
      have hvd : tid < numLogPileExperiences := hvalid
      have hstep1 : stepEvent visits (.canvasClick (some ⟨.logpile, tid⟩)) s
          = .ok { s with controlsEnabled := false, logPileBound := some tid, logPileOpen := true } := by
        simp only [stepEvent]
        unfold onCanvasClick
        rw [if_neg (by simp [hd]), if_neg (by simp [hp])]
        dsimp only
        unfold openLogPilePopup
        rw [if_pos hvd]
      have hstep2 : stepEvent visits (closeEventFor .logpile)
            { s with controlsEnabled := false, logPileBound := some tid, logPileOpen := true }
          = .ok (closeLogPilePopup { s with controlsEnabled := false, logPileBound := some tid, logPileOpen := true }) := by
        simp only [closeEventFor, stepEvent]
        simp
      refine ⟨_, runEvents_pair hstep1 hstep2, rfl, rfl, rfl, ?_⟩
      unfold openCount closeLogPilePopup
      simp [hov, hfr, hhb, hgd, hct, hfh, hmo]
    case garden =>
      have hvd : tid < numGardenExperiences := hvalid
      have hstep1 : stepEvent visits (.canvasClick (some ⟨.garden, tid⟩)) s
          = .ok { s with controlsEnabled := false, gardenBound := some tid, gardenOpen := true } := by
        simp only [stepEvent]
        unfold onCanvasClick
        rw [if_neg (by simp [hd]), if_neg (by simp [hp])]
        dsimp only
        unfold openGardenPopup
        rw [if_pos hvd]
      have hstep2 : stepEvent visits (closeEventFor .garden)
            { s with controlsEnabled := false, gardenBound := some tid, gardenOpen := true }
          = .ok (closeGardenPopup { s with controlsEnabled := false, gardenBound := some tid, gardenOpen := true }) := by
        simp only [closeEventFor, stepEvent]
        simp
      refine ⟨_, runEvents_pair hstep1 hstep2, rfl, rfl, rfl, ?_⟩
      unfold openCount closeGardenPopup
      simp [hov, hfr, hhb, hlp, hct, hfh, hmo]
    case cart =>
      have hvd : tid < numCartExperiences := hvalid
      have hstep1 : stepEvent visits (.canvasClick (some ⟨.cart, tid⟩)) s
          = .ok { s with controlsEnabled := false, cartBound := some tid, cartOpen := true } := by
        simp only [stepEvent]
        unfold onCanvasClick
        rw [if_neg (by simp [hd]), if_neg (by simp [hp])]
        dsimp only
        unfold openCartPopup
        rw [if_pos hvd]
      have hstep2 : stepEvent visits (closeEventFor .cart)
            { s with controlsEnabled := false, cartBound := some tid, cartOpen := true }
          = .ok (closeCartPopup { s with controlsEnabled := false, cartBound := some tid, cartOpen := true }) := by
        simp only [closeEventFor, stepEvent]
        simp
      refine ⟨_, runEvents_pair hstep1 hstep2, rfl, rfl, rfl, ?_⟩
      unfold openCount closeCartPopup
      simp [hov, hfr, hhb, hlp, hgd, hfh, hmo]
    case fishing =>
      have hvd : tid < numFishingExperiences := hvalid
      have hstep1 : stepEvent visits (.canvasClick (some ⟨.fishing, tid⟩)) s
          = .ok { s with controlsEnabled := false, fishingBound := some tid, fishingOpen := true } := by
        simp only [stepEvent]
        unfold onCanvasClick
        rw [if_neg (by simp [hd]), if_neg (by simp [hp])]
        dsimp only
        unfold openFishingPopup
        rw [if_pos hvd]
      have hstep2 : stepEvent visits (closeEventFor .fishing)
            { s with controlsEnabled := false, fishingBound := some tid, fishingOpen := true }
          = .ok (closeFishingPopup { s with controlsEnabled := false, fishingBound := some tid, fishingOpen := true }) := by
        simp only [closeEventFor, stepEvent]
        simp
      refine ⟨_, runEvents_pair hstep1 hstep2, rfl, rfl, rfl, ?_⟩
      unfold openCount closeFishingPopup
      simp [hov, hfr, hhb, hlp, hgd, hct, hmo]
    case memorial =>
      have hvd : tid < numMemorialExperiences := hvalid
      have hstep1 : stepEvent visits (.canvasClick (some ⟨.memorial, tid⟩)) s
          = .ok { s with controlsEnabled := false, memorialBound := some tid, memorialOpen := true } := by
        simp only [stepEvent]
        unfold onCanvasClick
        rw [if_neg (by simp [hd]), if_neg (by simp [hp])]
        dsimp only
        unfold openMemorialPopup
        rw [if_pos hvd]
      have hstep2 : stepEvent visits (closeEventFor .memorial)
            { s with controlsEnabled := false, memorialBound := some tid, memorialOpen := true }
          = .ok (closeMemorialPopup { s with controlsEnabled := false, memorialBound := some tid, memorialOpen := true }) := by
        simp only [closeEventFor, stepEvent]
        simp
      refine ⟨_, runEvents_pair hstep1 hstep2, rfl, rfl, rfl, ?_⟩
      unfold openCount closeMemorialPopup
      simp [hov, hfr, hhb, hlp, hgd, hct, hfh]
  · intro u u' e he hstep
    simp only [closeEventList, List.mem_cons, List.mem_nil_iff, or_false] at he
    rcases he with rfl | rfl | rfl | rfl | rfl | rfl | rfl | rfl | rfl
    all_goals simp only [stepEvent] at hstep
    case inr.inr.inr.inr.inr.inr.inr.inr =>
      cases hstep
      exact Or.inl rfl
    all_goals (split at hstep <;> cases hstep)
    all_goals first
      | exact Or.inl rfl
      | exact Or.inr rfl


/-- Witness for C9 (amended): open and close the first fireplace popup on a
fresh manager. -/
theorem c9_amended_open_close_progress_neutral_witness :
    (initState none).isDialogueOpen = false
    ∧ (initState none).overlayVisible = false
    ∧ anyPopupOpen (initState none) = false
    ∧ validTag elderVisitsOne ⟨.fireplace, 0⟩
    ∧ ((∃ s', runEvents elderVisitsOne
          [.canvasClick (some ⟨.fireplace, 0⟩), closeEventFor (⟨.fireplace, 0⟩ : HitTag).type]
          (initState none) = .ok s'
        ∧ s'.controlsEnabled = true
        ∧ s'.progress = (initState none).progress
        ∧ s'.completedVisits = (initState none).completedVisits
        ∧ openCount s' = 0)
      ∧ (∀ (u u' : ManagerState) (e : Event), e ∈ closeEventList →
          stepEvent elderVisitsOne e u = .ok u' → u'.controlsEnabled = true ∨ u' = u)) :=
  ⟨rfl, rfl, rfl, show (0 : Nat) < numFireplaceExperiences from by decide,
   c9_amended_open_close_progress_neutral elderVisitsOne ⟨.fireplace, 0⟩ (initState none)
     rfl rfl rfl (show (0 : Nat) < numFireplaceExperiences from by decide)⟩


/-! ### Claim C10 -/

/-- `fireTimer` never touches the session's completed set. -/
theorem fireTimer_keepsCompleted {s s' : ManagerState}
    (h : fireTimer s = .ok s') : s'.completedVisits = s.completedVisits := by
  unfold fireTimer at h
  cases ht : s.pendingTimers with
  | nil =>
    simp only [ht] at h
    cases h
    rfl
  | cons t rest =>
    cases t with
    | showSuccessCb =>
      simp only [ht] at h
      exact (showSuccess_keeps h).2.2.1
    | clearWrongCb nodeId =>
      simp only [ht] at h
      cases h
      rfl


/-- **C10**: the completed set driving the welcome-back shortcut is
in-memory, per manager instance, and never seeded from durable storage.  A
fresh manager starts with an empty completed set whatever the durable store
holds; `startVisit` then replays the full greeting narrative even when the
1-based key `cabin-(localId+1)` is already present in storage; and the
completed set can only grow through the acknowledge transition, which
inserts the id of the session's current visit — so the welcome-back branch
shows only for visits completed earlier in the same session. -/
theorem c10_completed_set_not_seeded (visits : List ElderVisit) :
    (∀ store0 : Option String, (initState store0).completedVisits = [])
    ∧ (∀ (store0 : Option String) (vid : Nat) (v : ElderVisit),
        visits[vid]? = some v → 0 < v.greeting.length →
        visitKey "cabin" (toString (vid + 1)) ∈ storedVisited (initProgress store0) →
        ∃ s', startVisit visits vid (initState store0) = .ok s'
          ∧ s'.continueAction = some .advanceAct
          ∧ s'.storyText = v.greeting.getD 0 "")
    ∧ (∀ (e : Event) (s s' : ManagerState), stepEvent visits e s = .ok s' →
        s'.completedVisits = s.completedVisits
        ∨ ∃ v, s.currentVisit = some v
            ∧ s'.completedVisits = insertOnce v.id s.completedVisits) := by
  refine ⟨fun _ => rfl, ?_, ?_⟩
  · intro store0 vid v hv hg _
    rw [startVisit_greeting hv (by simp [initState]) hg]
    exact ⟨_, rfl, rfl, rfl⟩
  · intro e s s' h
    cases e with
    | canvasClick hit =>
      simp only [stepEvent] at h
      unfold onCanvasClick at h
      split at h
      · cases h; exact Or.inl rfl
      · split at h
        · cases h; exact Or.inl rfl
        · cases hit with
          | none => cases h; exact Or.inl rfl
          | some tag =>
            obtain ⟨ty, tid⟩ := tag
            cases ty <;> dsimp only [] at h
            case cabin =>
              left
              unfold startVisit at h
              cases hv : visits[tid]? with
              | none =>
                simp only [hv] at h
                exact Except.noConfusion h
              | some v =>
                simp only [hv] at h
                split at h
                · cases h; rfl
                · cases hd2 : displayCurrentStep (startVisitBase v tid s) with
                  | error e2 =>
                    rw [hd2] at h
                    exact Except.noConfusion h
                  | ok sd =>
                    rw [hd2] at h
                    cases h
                    exact (displayCurrentStep_keeps hd2).2.2.2.1
            all_goals left
            all_goals
              first
                | unfold openFireplacePopup at h
                | unfold openHerbPopup at h
                | unfold openLogPilePopup at h
                | unfold openGardenPopup at h
                | unfold openCartPopup at h
                | unfold openFishingPopup at h
                | unfold openMemorialPopup at h
            all_goals
              split at h <;>
                first
                  | (cases h; rfl)
                  | exact Except.noConfusion h
    | clickContinue =>
      simp only [stepEvent] at h
      split at h
      · unfold continueClick at h
        cases ha : advanceDialogue s with
        | error e2 =>
          simp only [ha] at h
          exact Except.noConfusion h
        | ok s₁ =>
          simp only [ha] at h
          have hk := advanceDialogue_keeps ha
          cases hc : s₁.continueAction with
          | none =>
            simp only [hc] at h
            cases h
            exact Or.inl hk.2.2.2.1
          | some act =>
            simp only [hc] at h
            cases act with
            | advanceAct =>
              exact Or.inl ((advanceDialogue_keeps h).2.2.2.1.trans hk.2.2.2.1)
            | closeAct =>
              cases h
              exact Or.inl hk.2.2.2.1
            | completeAct =>
              obtain ⟨v, hcv₁, hins⟩ := completeVisit_completed h
              right
              refine ⟨v, hk.1 ▸ hcv₁, ?_⟩
              rw [hins, hk.2.2.2.1]
      · cases h
        exact Or.inl rfl
    | clickDialogueClose =>
      simp only [stepEvent] at h
      split at h <;> cases h
      · exact Or.inl rfl
      · exact Or.inl rfl
    | selectOption nodeId =>
      simp only [stepEvent] at h
      split at h
      · split at h <;> cases h
        · left
          unfold handleAnswer
          split <;> rfl
        · exact Or.inl rfl
      · cases h
        exact Or.inl rfl
    | timerFires => exact Or.inl (fireTimer_keepsCompleted h)
    | clickFireClose =>
      simp only [stepEvent] at h
      split at h <;> cases h
      · exact Or.inl rfl
      · exact Or.inl rfl
    | clickHerbClose =>
      simp only [stepEvent] at h
      split at h <;> cases h
      · exact Or.inl rfl
      · exact Or.inl rfl
    | clickLogPileClose =>
      simp only [stepEvent] at h
      split at h <;> cases h
      · exact Or.inl rfl
      · exact Or.inl rfl
    | clickGardenClose =>
      simp only [stepEvent] at h
      split at h <;> cases h
      · exact Or.inl rfl
      · exact Or.inl rfl
    | clickCartClose =>
      simp only [stepEvent] at h
      split at h <;> cases h
      · exact Or.inl rfl
      · exact Or.inl rfl
    | clickFishingClose =>
      simp only [stepEvent] at h
      split at h <;> cases h
      · exact Or.inl rfl
      · exact Or.inl rfl
    | clickMemorialClose =>
      simp only [stepEvent] at h
      split at h <;> cases h
      · exact Or.inl rfl
      · exact Or.inl rfl
    | pressEscape =>
      cases h
      exact Or.inl rfl


/-- Witness for C10: the durable store already holds `cabin-1`, yet the
fresh manager replays the greeting. -/
theorem c10_completed_set_not_seeded_witness :
    elderVisitsOne[0]? = some elderOne
    ∧ 0 < elderOne.greeting.length
    ∧ visitKey "cabin" (toString (0 + 1))
        ∈ storedVisited (initProgress (some (jsonStringify ["cabin-1"])))
    ∧ ∃ s', startVisit elderVisitsOne 0
          (initState (some (jsonStringify ["cabin-1"]))) = .ok s'
        ∧ s'.continueAction = some .advanceAct
        ∧ s'.storyText = elderOne.greeting.getD 0 "" := by
  have hkey : visitKey "cabin" (toString (0 + 1))
      ∈ storedVisited (initProgress (some (jsonStringify ["cabin-1"]))) := by
    simp only [storedVisited, initProgress, getVisited_stringify]
    simp [visitKey]
    rfl
  exact ⟨rfl, by decide, hkey,
    (c10_completed_set_not_seeded elderVisitsOne).2.1
      (some (jsonStringify ["cabin-1"])) 0 elderOne rfl (by decide) hkey⟩

end MetisPrairie
